import Mathlib

set_option maxRecDepth 8000

/- Verification development for the Summetry puzzle engine
   (src/mathblockblast_with_menu.py): the 7x7 board model, placement
   legality, the exact-sum line-clearing engine, the shape catalog,
   the adaptive piece generator and the game state machine.  Boards and
   shapes are embedded as lists of lists of naturals, mirroring the
   Python lists; randomness is embedded as an explicit stream of
   natural-number choices threaded through the translated functions. -/

namespace Summetry

/-- GRID_SIZE = 7 -/
def GRID_SIZE : Nat := 7

/-- TARGET_SUM = 25 -/
def TARGET_SUM : Nat := 25

/-- POINTS_PER_CELL = 15 -/
def POINTS_PER_CELL : Nat := 15

/-- A colour is an RGB triple, as in the source. -/
def Color : Type := Nat × Nat × Nat

instance : DecidableEq Color := by unfold Color; infer_instance

/-- BLOCK_COLORS (the eight RGB triples from the source). -/
def BLOCK_COLORS : List Color :=
  [(45, 130, 255), (80, 200, 120), (230, 80, 80), (255, 220, 80),
   (180, 100, 220), (255, 150, 50), (255, 100, 180), (50, 200, 200)]

/-- Read `g[y][x]` with default 0 (the source only indexes in bounds). -/
def cell2 (g : List (List Nat)) (y x : Nat) : Nat :=
  (g.getD y []).getD x 0

/-- Read `g[y][x]` of the colour grid with default none. -/
def ccell2 (g : List (List (Option Color))) (y x : Nat) : Option Color :=
  (g.getD y []).getD x none

/-- Write `g[y][x] := v`. -/
def setCell (g : List (List α)) (y x : Nat) (v : α) : List (List α) :=
  g.set y ((g.getD y []).set x v)

/-- The mutable board state: `self.grid` (occupancy 0/1), `self.grid_nums`
    (cell values) and `self.grid_colors`. -/
structure Board where
  grid : List (List Nat)
  grid_nums : List (List Nat)
  grid_colors : List (List (Option Color))
deriving DecidableEq

/-- A grid is well formed when it is a 7-row list of 7-long rows, as
    built by the constructor. -/
def WfGrid (g : List (List α)) : Prop :=
  g.length = GRID_SIZE ∧ ∀ row ∈ g, row.length = GRID_SIZE

instance (g : List (List α)) : Decidable (WfGrid g) := by
  unfold WfGrid; infer_instance

/-- All three grids of the board are 7x7. -/
def Wf (b : Board) : Prop :=
  WfGrid b.grid ∧ WfGrid b.grid_nums ∧ WfGrid b.grid_colors

instance (b : Board) : Decidable (Wf b) := by unfold Wf; infer_instance

/-- The freshly constructed board: all cells empty. -/
def emptyBoard : Board :=
  { grid := List.replicate GRID_SIZE (List.replicate GRID_SIZE 0)
    grid_nums := List.replicate GRID_SIZE (List.replicate GRID_SIZE 0)
    grid_colors := List.replicate GRID_SIZE (List.replicate GRID_SIZE none) }

/-- A `Piece`: the numeric shape matrix plus the `h`, `w` and `color`
    attributes set by `Piece.__init__`. -/
structure Piece where
  shape : List (List Nat)
  h : Nat
  w : Nat
  color : Color
deriving DecidableEq

/-- `BlockBlastGame.can_place(piece, x, y)`: every nonzero cell of the
    shape (ranging over `range(piece.h) x range(piece.w)`) must map to an
    in-bounds empty board cell. -/
def can_place (b : Board) (p : Piece) (x y : Int) : Bool :=
  (List.range p.h).all fun dy =>
    (List.range p.w).all fun dx =>
      if cell2 p.shape dy dx ≠ 0 then
        let gx := x + dx
        let gy := y + dy
        decide (0 ≤ gx) && decide (gx < GRID_SIZE) && decide (0 ≤ gy) &&
          decide (gy < GRID_SIZE) && (cell2 b.grid gy.toNat gx.toNat == 0)
      else true

/-- `BlockBlastGame.find_any_pos(piece)`: first (x, y) origin, scanning
    y then x, at which the piece can be placed. -/
def find_any_pos (b : Board) (p : Piece) : Option (Nat × Nat) :=
  (List.range (GRID_SIZE + 1 - p.h)).findSome? fun y =>
    (List.range (GRID_SIZE + 1 - p.w)).findSome? fun x =>
      if can_place b p (Int.ofNat x) (Int.ofNat y) then some (x, y) else none

/-- The board-mutation part of `BlockBlastGame.place_piece`: write
    occupancy, value and colour of every nonzero shape cell. -/
def place_on_board (b : Board) (p : Piece) (x y : Nat) : Board :=
  (List.range p.h).foldl
    (fun b1 dy =>
      (List.range p.w).foldl
        (fun b2 dx =>
          if cell2 p.shape dy dx ≠ 0 then
            { grid := setCell b2.grid (y + dy) (x + dx) 1
              grid_nums := setCell b2.grid_nums (y + dy) (x + dx) (cell2 p.shape dy dx)
              grid_colors := setCell b2.grid_colors (y + dy) (x + dx) (some p.color) }
          else b2)
        b1)
    b

/-- Row completeness test of `check_and_animate`:
    `all(self.grid[y][x] != 0 for x in range(self.board_size))`. -/
def row_full (b : Board) (y : Nat) : Bool :=
  (List.range GRID_SIZE).all fun x => cell2 b.grid y x != 0

/-- Row sum of `check_and_animate`: `sum(self.grid_nums[y])`. -/
def row_sum (b : Board) (y : Nat) : Nat :=
  (b.grid_nums.getD y []).sum

/-- Column completeness test of `check_and_animate`. -/
def col_full (b : Board) (x : Nat) : Bool :=
  (List.range GRID_SIZE).all fun y => cell2 b.grid y x != 0

/-- Column sum of `check_and_animate`:
    `sum(self.grid_nums[y][x] for y in range(self.board_size))`. -/
def col_sum (b : Board) (x : Nat) : Nat :=
  ((List.range GRID_SIZE).map fun y => cell2 b.grid_nums y x).sum

/-- Row y qualifies for clearing: complete and summing to TARGET_SUM. -/
def row_clears (b : Board) (y : Nat) : Bool :=
  row_full b y && (row_sum b y == TARGET_SUM)

/-- Column x qualifies for clearing. -/
def col_clears (b : Board) (x : Nat) : Bool :=
  col_full b x && (col_sum b x == TARGET_SUM)

/-- The `to_clear` set of `check_and_animate`: the union, as a set, of
    the cells (x, y) of every qualifying row and every qualifying
    column (the Python code inserts them into one `set`). -/
def to_clear (b : Board) : Finset (Nat × Nat) :=
  ((Finset.range GRID_SIZE).filter fun y => row_clears b y = true).biUnion
      (fun y => (Finset.range GRID_SIZE).image fun x => (x, y)) ∪
    ((Finset.range GRID_SIZE).filter fun x => col_clears b x = true).biUnion
      (fun x => (Finset.range GRID_SIZE).image fun y => (x, y))

/-- `check_and_animate`: returns the animation cell set, the pair
    `(len(to_clear), pts)` that the method returns, and the updated
    score (`self.score += pts`). -/
def check_and_animate (b : Board) (score : Nat) :
    Finset (Nat × Nat) × (Nat × Nat) × Nat :=
  let tc := to_clear b
  let pts := tc.card * POINTS_PER_CELL
  (tc, (tc.card, pts), score + pts)

/-- Indexed map over one row, tracking the column index. -/
def mapCells (f : Nat → α → α) : Nat → List α → List α
  | _, [] => []
  | x, v :: rest => f x v :: mapCells f (x + 1) rest

/-- Indexed map over the rows of a grid, tracking the row index. -/
def mapRows (f : Nat → Nat → α → α) : Nat → List (List α) → List (List α)
  | _, [] => []
  | y, row :: rest => mapCells (f y) 0 row :: mapRows f (y + 1) rest

/-- Indexed map over a whole grid. -/
def mapGrid (f : Nat → Nat → α → α) (g : List (List α)) : List (List α) :=
  mapRows f 0 g

/-- The cell-resetting part of `update_animations` once the clear
    animation has elapsed: every animated cell (x, y) that is still
    occupied has its occupancy, value and colour reset.  The Python
    loop iterates over the (distinct) cells and performs independent
    writes, which is this pointwise update. -/
def update_animations (b : Board) (cells : Finset (Nat × Nat)) : Board :=
  { grid := mapGrid (fun y x v => if (x, y) ∈ cells ∧ cell2 b.grid y x ≠ 0 then 0 else v) b.grid
    grid_nums := mapGrid (fun y x v => if (x, y) ∈ cells ∧ cell2 b.grid y x ≠ 0 then 0 else v) b.grid_nums
    grid_colors := mapGrid (fun y x v => if (x, y) ∈ cells ∧ cell2 b.grid y x ≠ 0 then none else v) b.grid_colors }

/-- The full clearing evaluation as the spec views it: `check_and_animate`
    followed by the animated cells being reset by `update_animations`.
    Returns the new board, the cleared-cell count and the score delta. -/
def evaluate_and_clear (b : Board) : Board × Nat × Nat :=
  let tc := to_clear b
  (update_animations b tc, tc.card, tc.card * POINTS_PER_CELL)

/-- The SHAPES catalog, copied entry by entry from the source. -/
def SHAPES : List (List (List Nat)) :=
  [ [[1]],
    [[1, 1]],
    [[1], [1]],
    [[1, 1, 1]],
    [[1], [1], [1]],
    [[1, 1], [1, 1]],
    [[1, 1, 1], [0, 1, 0]],
    [[1, 1], [1, 0]],
    [[1, 1], [0, 1]],
    [[1, 0], [1, 0], [1, 1]],
    [[0, 1], [0, 1], [1, 1]],
    [[1, 0, 1], [1, 1, 1]],
    [[1, 1, 1, 1]],
    [[1], [1, 1], [1]] ]

/-- A random source: the stream of choices an execution of the Python
    `random` module makes, embedded as a list of naturals (exhausted
    streams yield 0).  Each primitive below consumes one element and
    can produce every value its Python counterpart can. -/
abbrev RS := List Nat

/-- Consume one choice. -/
def rnext (s : RS) : Nat × RS := (s.headD 0, s.tail)

/-- `random.randint(mn, mx)` (inclusive bounds). -/
def randint (mn mx : Nat) (s : RS) : Nat × RS :=
  let (n, s1) := rnext s
  (mn + n % (mx - mn + 1), s1)

/-- `random.choice(l)` (the source never calls it on an empty list;
    `d` is the out-of-domain default). -/
def rchoice (l : List α) (d : α) (s : RS) : α × RS :=
  let (n, s1) := rnext s
  (l.getD (n % l.length) d, s1)

/-- The `random.random() < 0.3` branch decision. -/
def rbool3 (s : RS) : Bool × RS :=
  let (n, s1) := rnext s
  (n % 10 < 3, s1)

/-- `random.shuffle`: repeatedly extract the element at a stream-chosen
    index; every permutation is reachable for a suitable stream. -/
def rshuffleGo : Nat → List α → RS → List α × RS
  | 0, _, s => ([], s)
  | _ + 1, [], s => ([], s)
  | fuel + 1, a0 :: rest, s =>
    let (n, s1) := rnext s
    let i := n % (a0 :: rest).length
    let a := (a0 :: rest).getD i a0
    let (tl, s2) := rshuffleGo fuel ((a0 :: rest).eraseIdx i) s1
    (a :: tl, s2)

/-- `random.shuffle(l)` as a pure permutation of `l`. -/
def rshuffle (l : List α) (s : RS) : List α × RS :=
  rshuffleGo l.length l s

/-- The three fill biases of `random_piece_from_shape`. -/
inductive Bias
  | low
  | neutral
  | high
deriving DecidableEq

/-- The [mn, mx] fill window of each bias. -/
def biasRange : Bias → Nat × Nat
  | .low => (1, 3)
  | .high => (3, 5)
  | .neutral => (1, 5)

/-- Fill one shape row: cells equal to 1 get `randint(mn, mx)`, all
    other cells get 0. -/
def fillRow (mn mx : Nat) : List Nat → RS → List Nat × RS
  | [], s => ([], s)
  | c :: rest, s =>
    let (v, s1) := if c == 1 then randint mn mx s else (0, s)
    let (vs, s2) := fillRow mn mx rest s1
    (v :: vs, s2)

/-- Fill all rows of a shape, row-major as the list comprehension does. -/
def fillRows (mn mx : Nat) : List (List Nat) → RS → List (List Nat) × RS
  | [], s => ([], s)
  | row :: rest, s =>
    let (r1, s1) := fillRow mn mx row s
    let (rs, s2) := fillRows mn mx rest s1
    (r1 :: rs, s2)

/-- `random_piece_from_shape(shape, bias)` for a given shape (the
    `shape=None` branch, which first draws a random catalog shape, is
    never taken by the generator and is not modelled). -/
def random_piece_from_shape (shape : List (List Nat)) (bias : Bias) (s : RS) :
    List (List Nat) × RS :=
  let (mn, mx) := biasRange bias
  fillRows mn mx shape s

/-- The `contains_numbers` test of `Piece.__init__`: some cell is
    neither 0 nor 1. -/
def contains_numbers (shape : List (List Nat)) : Bool :=
  shape.any fun row => row.any fun c => !(c == 0 || c == 1)

/-- `Piece.__init__(shape, bias)` for a given shape: keep the matrix if
    it already contains numbers, otherwise fill the 0/1 template with
    biased random values; then record `h`, `w` and a random colour. -/
def piece_init (shape : List (List Nat)) (bias : Bias) (s : RS) : Piece × RS :=
  let (shp, s1) :=
    if contains_numbers shape then (shape, s)
    else random_piece_from_shape shape bias s
  let (col, s2) := rchoice BLOCK_COLORS (45, 130, 255) s1
  ({ shape := shp, h := shp.length, w := (shp.headD []).length, color := col }, s2)

/-- The values of all occupied cells, row-major, as collected by
    `board_average`. -/
def boardVals (b : Board) : List Nat :=
  (List.range GRID_SIZE).flatMap fun r =>
    ((List.range GRID_SIZE).map fun c => cell2 b.grid_nums r c).filter fun v => v ≠ 0

/-- `board_average`: None on an empty board, otherwise the mean value
    `sum(vals)/len(vals)` of the occupied cells (the Python float
    division, embedded as the exact rational `Rat.divInt sum len`). -/
def board_average (b : Board) : Option ℚ :=
  let vals := boardVals b
  if vals = [] then none
  else some (Rat.divInt vals.sum vals.length)

/-- `choose_bias_from_board`: low when the mean is at least 3.5 (= 7/2),
    high when it is at most 2.0, neutral otherwise. -/
def choose_bias_from_board (b : Board) : Bias :=
  match board_average b with
  | none => .neutral
  | some avg => if avg ≥ Rat.divInt 7 2 then .low else if avg ≤ 2 then .high else .neutral

theorem can_place_iff (b : Board) (p : Piece) (x y : Int) :
    can_place b p x y = true ↔
      ∀ dy < p.h, ∀ dx < p.w, cell2 p.shape dy dx ≠ 0 →
        0 ≤ x + dx ∧ x + dx < (GRID_SIZE : Int) ∧ 0 ≤ y + dy ∧ y + dy < (GRID_SIZE : Int) ∧
          cell2 b.grid (y + dy).toNat (x + dx).toNat = 0 := by
  unfold can_place
  simp only [List.all_eq_true, List.mem_range]
  constructor
  · intro h dy hdy dx hdx hocc
    have h2 := h dy hdy dx hdx
    rw [if_pos hocc] at h2
    simp only [Bool.and_eq_true, decide_eq_true_eq, beq_iff_eq] at h2
    exact ⟨h2.1.1.1.1, h2.1.1.1.2, h2.1.1.2, h2.1.2, h2.2⟩
  · intro h dy hdy dx hdx
    by_cases hocc : cell2 p.shape dy dx ≠ 0
    · rw [if_pos hocc]
      obtain ⟨h1, h2, h3, h4, h5⟩ := h dy hdy dx hdx hocc
      simp only [Bool.and_eq_true, decide_eq_true_eq, beq_iff_eq]
      exact ⟨⟨⟨⟨h1, h2⟩, h3⟩, h4⟩, h5⟩
    · rw [if_neg hocc]

theorem mem_to_clear (b : Board) (x y : Nat) :
    (x, y) ∈ to_clear b ↔
      x < GRID_SIZE ∧ y < GRID_SIZE ∧
        (row_clears b y = true ∨ col_clears b x = true) := by
  unfold to_clear
  simp only [Finset.mem_union, Finset.mem_biUnion, Finset.mem_filter, Finset.mem_range,
    Finset.mem_image, Prod.mk.injEq]
  constructor
  · rintro (⟨y1, ⟨hy1, hr⟩, x1, hx1, hxx, hyy⟩ | ⟨x1, ⟨hx1, hc⟩, y1, hy1, hxx, hyy⟩)
    · subst hxx; subst hyy; exact ⟨hx1, hy1, Or.inl hr⟩
    · subst hxx; subst hyy; exact ⟨hx1, hy1, Or.inr hc⟩
  · rintro ⟨hx, hy, hr | hc⟩
    · exact Or.inl ⟨y, ⟨hy, hr⟩, x, hx, rfl, rfl⟩
    · exact Or.inr ⟨x, ⟨hx, hc⟩, y, hy, rfl, rfl⟩

theorem mapCells_length (f : Nat → α → α) (x0 : Nat) (l : List α) :
    (mapCells f x0 l).length = l.length := by
  induction l generalizing x0 with
  | nil => rfl
  | cons a t ih => simp [mapCells, ih]

theorem mapCells_getD (f : Nat → α → α) (x0 : Nat) (l : List α) (x : Nat) (d : α) :
    (mapCells f x0 l).getD x d = if x < l.length then f (x0 + x) (l.getD x d) else d := by
  induction l generalizing x0 x with
  | nil => simp [mapCells]
  | cons a t ih =>
    cases x with
    | zero => simp [mapCells]
    | succ n =>
      simp only [mapCells, List.getD_cons_succ, List.length_cons, ih (x0 + 1) n]
      have hn : x0 + 1 + n = x0 + (n + 1) := by omega
      rw [hn]
      simp [Nat.succ_lt_succ_iff]

theorem mapRows_length (f : Nat → Nat → α → α) (y0 : Nat) (g : List (List α)) :
    (mapRows f y0 g).length = g.length := by
  induction g generalizing y0 with
  | nil => rfl
  | cons r t ih => simp [mapRows, ih]

theorem mapRows_getD (f : Nat → Nat → α → α) (y0 : Nat) (g : List (List α)) (y : Nat) :
    (mapRows f y0 g).getD y [] =
      if y < g.length then mapCells (f (y0 + y)) 0 (g.getD y []) else [] := by
  induction g generalizing y0 y with
  | nil => simp [mapRows]
  | cons r t ih =>
    cases y with
    | zero => simp [mapRows]
    | succ n =>
      simp only [mapRows, List.getD_cons_succ, List.length_cons, ih (y0 + 1) n]
      have hn : y0 + 1 + n = y0 + (n + 1) := by omega
      rw [hn]
      simp [Nat.succ_lt_succ_iff]

theorem mapGrid_getD (f : Nat → Nat → α → α) (g : List (List α)) (y x : Nat) (d : α)
    (hy : y < g.length) (hx : x < (g.getD y []).length) :
    ((mapGrid f g).getD y []).getD x d = f y x ((g.getD y []).getD x d) := by
  unfold mapGrid
  rw [mapRows_getD, if_pos hy, mapCells_getD, if_pos hx]
  simp

theorem mapGrid_getD_row_len (f : Nat → Nat → α → α) (g : List (List α)) (y : Nat) :
    ((mapGrid f g).getD y []).length = (g.getD y []).length := by
  unfold mapGrid
  rw [mapRows_getD]
  by_cases hy : y < g.length
  · rw [if_pos hy, mapCells_length]
  · rw [if_neg hy, List.getD_eq_default _ _ (Nat.le_of_not_lt hy)]

theorem WfGrid_mapGrid (f : Nat → Nat → α → α) (g : List (List α)) (h : WfGrid g) :
    WfGrid (mapGrid f g) := by
  obtain ⟨h1, h2⟩ := h
  refine ⟨by rw [mapGrid, mapRows_length, h1], ?_⟩
  intro row hrow
  obtain ⟨i, hi, hget⟩ := List.getElem_of_mem hrow
  have hlen : i < g.length := by rw [mapGrid, mapRows_length] at hi; exact hi
  have : row = ((mapGrid f g).getD i []) := by
    rw [List.getD_eq_getElem _ _ hi, hget]
  rw [this, mapGrid_getD_row_len]
  have hmem : g.getD i [] ∈ g := by
    rw [List.getD_eq_getElem _ _ hlen]
    exact List.getElem_mem hlen
  exact h2 _ hmem

theorem mapGrid_id (f : Nat → Nat → α → α) (g : List (List α))
    (h : ∀ y x v, f y x v = v) : mapGrid f g = g := by
  suffices hrows : ∀ y0 g2, mapRows f y0 g2 = g2 by exact hrows 0 g
  have hcells : ∀ (f2 : Nat → α → α), (∀ x v, f2 x v = v) → ∀ x0 l, mapCells f2 x0 l = l := by
    intro f2 hf2 x0 l
    induction l generalizing x0 with
    | nil => rfl
    | cons a t ih => simp [mapCells, hf2, ih]
  intro y0 g2
  induction g2 generalizing y0 with
  | nil => rfl
  | cons r t ih => simp [mapRows, hcells (f y0) (h y0), ih]

theorem getD_range_sum (l : List Nat) :
    ((List.range l.length).map fun x => l.getD x 0).sum = l.sum := by
  induction l with
  | nil => simp
  | cons a t ih =>
    rw [List.length_cons, List.range_succ_eq_map, List.map_cons, List.map_map]
    simp only [List.sum_cons, List.getD_cons_zero]
    have : ((List.range t.length).map ((fun x => (a :: t).getD x 0) ∘ Nat.succ)).sum = t.sum := by
      simp only [Function.comp_def, List.getD_cons_succ]
      exact ih
    omega

theorem wf_row_len (g : List (List α)) (h : WfGrid g) (y : Nat) (hy : y < GRID_SIZE) :
    (g.getD y []).length = GRID_SIZE := by
  have hylen : y < g.length := by rw [h.1]; exact hy
  apply h.2
  rw [List.getD_eq_getElem _ _ hylen]
  exact List.getElem_mem hylen

theorem wf_update (b : Board) (cells : Finset (Nat × Nat)) (hb : Wf b) :
    Wf (update_animations b cells) :=
  ⟨WfGrid_mapGrid _ _ hb.1, WfGrid_mapGrid _ _ hb.2.1, WfGrid_mapGrid _ _ hb.2.2⟩

theorem cell2_update_grid (b : Board) (cells : Finset (Nat × Nat)) (hb : Wf b)
    (y x : Nat) (hy : y < GRID_SIZE) (hx : x < GRID_SIZE) :
    cell2 (update_animations b cells).grid y x =
      if (x, y) ∈ cells ∧ cell2 b.grid y x ≠ 0 then 0 else cell2 b.grid y x := by
  have hylen : y < b.grid.length := by rw [hb.1.1]; exact hy
  have hxlen : x < (b.grid.getD y []).length := by
    rw [wf_row_len b.grid hb.1 y hy]; exact hx
  unfold update_animations cell2
  exact mapGrid_getD _ _ y x 0 hylen hxlen

theorem cell2_update_nums (b : Board) (cells : Finset (Nat × Nat)) (hb : Wf b)
    (y x : Nat) (hy : y < GRID_SIZE) (hx : x < GRID_SIZE) :
    cell2 (update_animations b cells).grid_nums y x =
      if (x, y) ∈ cells ∧ cell2 b.grid y x ≠ 0 then 0 else cell2 b.grid_nums y x := by
  have hylen : y < b.grid_nums.length := by rw [hb.2.1.1]; exact hy
  have hxlen : x < (b.grid_nums.getD y []).length := by
    rw [wf_row_len b.grid_nums hb.2.1 y hy]; exact hx
  unfold update_animations cell2
  exact mapGrid_getD _ _ y x 0 hylen hxlen

theorem ccell2_update_colors (b : Board) (cells : Finset (Nat × Nat)) (hb : Wf b)
    (y x : Nat) (hy : y < GRID_SIZE) (hx : x < GRID_SIZE) :
    ccell2 (update_animations b cells).grid_colors y x =
      if (x, y) ∈ cells ∧ cell2 b.grid y x ≠ 0 then none
      else ccell2 b.grid_colors y x := by
  have hylen : y < b.grid_colors.length := by rw [hb.2.2.1]; exact hy
  have hxlen : x < (b.grid_colors.getD y []).length := by
    rw [wf_row_len b.grid_colors hb.2.2 y hy]; exact hx
  unfold update_animations ccell2
  exact mapGrid_getD _ _ y x none hylen hxlen

theorem row_full_iff (b : Board) (y : Nat) :
    row_full b y = true ↔ ∀ x < GRID_SIZE, cell2 b.grid y x ≠ 0 := by
  unfold row_full
  simp [List.all_eq_true, List.mem_range]

theorem col_full_iff (b : Board) (x : Nat) :
    col_full b x = true ↔ ∀ y < GRID_SIZE, cell2 b.grid y x ≠ 0 := by
  unfold col_full
  simp [List.all_eq_true, List.mem_range]

theorem row_clears_iff (b : Board) (y : Nat) :
    row_clears b y = true ↔ row_full b y = true ∧ row_sum b y = TARGET_SUM := by
  unfold row_clears
  simp

theorem col_clears_iff (b : Board) (x : Nat) :
    col_clears b x = true ↔ col_full b x = true ∧ col_sum b x = TARGET_SUM := by
  unfold col_clears
  simp

theorem row_sum_eq_range (b : Board) (hb : Wf b) (y : Nat) (hy : y < GRID_SIZE) :
    row_sum b y = ((List.range GRID_SIZE).map fun x => cell2 b.grid_nums y x).sum := by
  have h7 : (b.grid_nums.getD y []).length = GRID_SIZE := wf_row_len _ hb.2.1 y hy
  unfold row_sum cell2
  rw [← getD_range_sum (b.grid_nums.getD y []), h7]

theorem update_animations_empty (b : Board) : update_animations b ∅ = b := by
  unfold update_animations
  cases b with
  | mk g n c =>
    simp only
    congr 1
    · exact mapGrid_id _ _ (fun y x v => by simp)
    · exact mapGrid_id _ _ (fun y x v => by simp)
    · exact mapGrid_id _ _ (fun y x v => by simp)

theorem to_clear_update_self_empty (b : Board) (hb : Wf b) :
    to_clear (update_animations b (to_clear b)) = ∅ := by
  set b2 := update_animations b (to_clear b) with hb2def
  have hb2 : Wf b2 := wf_update b _ hb
  -- a cell of b2 that is still occupied was not cleared and kept its value
  have hkeep : ∀ y x, y < GRID_SIZE → x < GRID_SIZE → cell2 b2.grid y x ≠ 0 →
      (x, y) ∉ to_clear b ∧ cell2 b.grid y x = cell2 b2.grid y x ∧
        cell2 b.grid_nums y x = cell2 b2.grid_nums y x := by
    intro y x hy hx hocc
    have hgrid := cell2_update_grid b (to_clear b) hb y x hy hx
    rw [← hb2def] at hgrid
    by_cases hc : (x, y) ∈ to_clear b ∧ cell2 b.grid y x ≠ 0
    · rw [if_pos hc] at hgrid
      exact absurd hgrid hocc
    · rw [if_neg hc] at hgrid
      have hbocc : cell2 b.grid y x ≠ 0 := by rw [← hgrid]; exact hocc
      have hnmem : (x, y) ∉ to_clear b := fun hm => hc ⟨hm, hbocc⟩
      have hnums := cell2_update_nums b (to_clear b) hb y x hy hx
      rw [← hb2def, if_neg hc] at hnums
      exact ⟨hnmem, hgrid.symm, hnums.symm⟩
  ext c
  obtain ⟨x, y⟩ := c
  simp only [Finset.not_mem_empty, iff_false]
  intro hmem
  rw [mem_to_clear] at hmem
  obtain ⟨hx, hy, hqual⟩ := hmem
  rcases hqual with hrow | hcol
  · -- a qualifying row of b2 would already have qualified in b
    obtain ⟨hfull, hsum⟩ := (row_clears_iff b2 y).1 hrow
    have hcells := (row_full_iff b2 y).1 hfull
    have hkeepr : ∀ x2 < GRID_SIZE, (x2, y) ∉ to_clear b ∧
        cell2 b.grid y x2 ≠ 0 ∧ cell2 b.grid_nums y x2 = cell2 b2.grid_nums y x2 := by
      intro x2 hx2
      obtain ⟨h1, h2, h3⟩ := hkeep y x2 hy hx2 (hcells x2 hx2)
      exact ⟨h1, by rw [h2]; exact hcells x2 hx2, h3⟩
    have hfullb : row_full b y = true := by
      rw [row_full_iff]
      intro x2 hx2
      exact (hkeepr x2 hx2).2.1
    have hsumb : row_sum b y = TARGET_SUM := by
      rw [row_sum_eq_range b hb y hy]
      rw [row_sum_eq_range b2 hb2 y hy] at hsum
      rw [← hsum]
      apply congrArg
      apply List.map_congr_left
      intro x2 hx2
      exact (hkeepr x2 (List.mem_range.1 hx2)).2.2
    have hclb : row_clears b y = true := (row_clears_iff b y).2 ⟨hfullb, hsumb⟩
    have hmem0 : (0, y) ∈ to_clear b := by
      rw [mem_to_clear]
      exact ⟨by norm_num [GRID_SIZE], hy, Or.inl hclb⟩
    exact (hkeepr 0 (by norm_num [GRID_SIZE])).1 hmem0
  · obtain ⟨hfull, hsum⟩ := (col_clears_iff b2 x).1 hcol
    have hcells := (col_full_iff b2 x).1 hfull
    have hkeepc : ∀ y2 < GRID_SIZE, (x, y2) ∉ to_clear b ∧
        cell2 b.grid y2 x ≠ 0 ∧ cell2 b.grid_nums y2 x = cell2 b2.grid_nums y2 x := by
      intro y2 hy2
      obtain ⟨h1, h2, h3⟩ := hkeep y2 x hy2 hx (hcells y2 hy2)
      exact ⟨h1, by rw [h2]; exact hcells y2 hy2, h3⟩
    have hfullb : col_full b x = true := by
      rw [col_full_iff]
      intro y2 hy2
      exact (hkeepc y2 hy2).2.1
    have hsumb : col_sum b x = TARGET_SUM := by
      unfold col_sum
      unfold col_sum at hsum
      rw [← hsum]
      apply congrArg
      apply List.map_congr_left
      intro y2 hy2
      exact (hkeepc y2 (List.mem_range.1 hy2)).2.2
    have hclb : col_clears b x = true := (col_clears_iff b x).2 ⟨hfullb, hsumb⟩
    have hmem0 : (x, 0) ∈ to_clear b := by
      rw [mem_to_clear]
      exact ⟨hx, by norm_num [GRID_SIZE], Or.inr hclb⟩
    exact (hkeepc 0 (by norm_num [GRID_SIZE])).1 hmem0

/-- The first catalog colour. -/
def blueColor : Color := (45, 130, 255)

/-- A board whose row 0 holds the given values (all occupied) and is
    otherwise empty. -/
def rowBoard (vals : List Nat) : Board :=
  { grid := List.replicate GRID_SIZE 1 :: List.replicate 6 (List.replicate GRID_SIZE 0)
    grid_nums := vals :: List.replicate 6 (List.replicate GRID_SIZE 0)
    grid_colors := List.replicate GRID_SIZE (some blueColor) ::
      List.replicate 6 (List.replicate GRID_SIZE none) }

/-- A board on which both row 3 (values 3,3,5,4,4,3,3) and column 2
    (values 3,3,3,5,3,4,4) are complete with sum 25, overlapping at
    cell (2, 3). -/
def cross_board : Board :=
  { grid := [[0,0,1,0,0,0,0],[0,0,1,0,0,0,0],[0,0,1,0,0,0,0],[1,1,1,1,1,1,1],
             [0,0,1,0,0,0,0],[0,0,1,0,0,0,0],[0,0,1,0,0,0,0]]
    grid_nums := [[0,0,3,0,0,0,0],[0,0,3,0,0,0,0],[0,0,3,0,0,0,0],[3,3,5,4,4,3,3],
                  [0,0,3,0,0,0,0],[0,0,4,0,0,0,0],[0,0,4,0,0,0,0]]
    grid_colors := List.replicate GRID_SIZE (List.replicate GRID_SIZE (some blueColor)) }

/-- The clear-set as the spec words it: the set of cells belonging to
    some qualifying row or column. -/
def spec_clear_set (b : Board) : Finset (Nat × Nat) :=
  (Finset.range GRID_SIZE ×ˢ Finset.range GRID_SIZE).filter fun c =>
    row_clears b c.2 = true ∨ col_clears b c.1 = true

theorem to_clear_eq_spec (b : Board) : to_clear b = spec_clear_set b := by
  ext c
  obtain ⟨x, y⟩ := c
  rw [mem_to_clear]
  unfold spec_clear_set
  simp only [Finset.mem_filter, Finset.mem_product, Finset.mem_range]
  tauto

/-- C3 as amended: a cell is put in the clear-set iff its row, or its
    column, is completely occupied with values summing to exactly
    TARGET_SUM = 25.  A full row valued 5,5,5,5,5,4,1 (sum 30) produces
    no clear — and neither does 5,5,5,5,5,3,2, whose sum is also 30,
    not 25 as the claim asserts; a row genuinely summing to 25, such as
    5,5,5,5,2,2,1, clears exactly that row. -/
theorem c3_theorem :
    (∀ b : Board, Wf b → ∀ x y : Nat,
      ((x, y) ∈ to_clear b ↔
        x < GRID_SIZE ∧ y < GRID_SIZE ∧
          (((∀ x2 < GRID_SIZE, cell2 b.grid y x2 ≠ 0) ∧
              ((List.range GRID_SIZE).map fun x2 => cell2 b.grid_nums y x2).sum = TARGET_SUM) ∨
            ((∀ y2 < GRID_SIZE, cell2 b.grid y2 x ≠ 0) ∧
              ((List.range GRID_SIZE).map fun y2 => cell2 b.grid_nums y2 x).sum = TARGET_SUM)))) ∧
    to_clear (rowBoard [5, 5, 5, 5, 5, 4, 1]) = ∅ ∧
    to_clear (rowBoard [5, 5, 5, 5, 5, 3, 2]) = ∅ ∧
    to_clear (rowBoard [5, 5, 5, 5, 2, 2, 1]) =
      (Finset.range GRID_SIZE).image (fun x => (x, 0)) := by
  refine ⟨?_, by decide, by decide, by decide⟩
  intro b hb x y
  rw [mem_to_clear]
  constructor
  · rintro ⟨hx, hy, h⟩
    refine ⟨hx, hy, ?_⟩
    rcases h with hr | hc
    · obtain ⟨hf, hs⟩ := (row_clears_iff b y).1 hr
      exact Or.inl ⟨(row_full_iff b y).1 hf, by rw [← row_sum_eq_range b hb y hy]; exact hs⟩
    · obtain ⟨hf, hs⟩ := (col_clears_iff b x).1 hc
      exact Or.inr ⟨(col_full_iff b x).1 hf, hs⟩
  · rintro ⟨hx, hy, h⟩
    refine ⟨hx, hy, ?_⟩
    rcases h with ⟨hf, hs⟩ | ⟨hf, hs⟩
    · refine Or.inl ((row_clears_iff b y).2 ⟨(row_full_iff b y).2 hf, ?_⟩)
      rw [row_sum_eq_range b hb y hy]
      exact hs
    · exact Or.inr ((col_clears_iff b x).2 ⟨(col_full_iff b x).2 hf, hs⟩)

/-- C3 counterexample: the claim asserts the full row valued
    5,5,5,5,5,3,2 sums to 25 and clears; in fact it sums to 30 and the
    code clears nothing on that board. -/
theorem c3_counterexample :
    row_full (rowBoard [5, 5, 5, 5, 5, 3, 2]) 0 = true ∧
    row_sum (rowBoard [5, 5, 5, 5, 5, 3, 2]) 0 = 30 ∧
    to_clear (rowBoard [5, 5, 5, 5, 5, 3, 2]) = ∅ ∧
    (check_and_animate (rowBoard [5, 5, 5, 5, 5, 3, 2]) 0).2.1 = (0, 0) := by decide

/-- C3 witness: the general part of the theorem instantiated on the
    concrete sum-25 board. -/
theorem c3_witness :
    Wf (rowBoard [5, 5, 5, 5, 2, 2, 1]) ∧
      ((0, 0) ∈ to_clear (rowBoard [5, 5, 5, 5, 2, 2, 1]) ↔
        0 < GRID_SIZE ∧ 0 < GRID_SIZE ∧
          (((∀ x2 < GRID_SIZE, cell2 (rowBoard [5, 5, 5, 5, 2, 2, 1]).grid 0 x2 ≠ 0) ∧
              ((List.range GRID_SIZE).map fun x2 =>
                cell2 (rowBoard [5, 5, 5, 5, 2, 2, 1]).grid_nums 0 x2).sum = TARGET_SUM) ∨
            ((∀ y2 < GRID_SIZE, cell2 (rowBoard [5, 5, 5, 5, 2, 2, 1]).grid y2 0 ≠ 0) ∧
              ((List.range GRID_SIZE).map fun y2 =>
                cell2 (rowBoard [5, 5, 5, 5, 2, 2, 1]).grid_nums y2 0).sum = TARGET_SUM))) :=
  ⟨by decide, c3_theorem.1 _ (by decide) 0 0⟩

/-- C4: the clearing evaluation (check_and_animate followed by the
    animation completing in update_animations) resets every clear-set
    cell to occupied=false, value=0, colour=none; re-evaluating right
    after returns (0, 0); and with no qualifying line it returns (0, 0)
    and leaves every board cell untouched. -/
theorem c4_theorem : ∀ b : Board, Wf b →
    (∀ c ∈ to_clear b,
        cell2 (evaluate_and_clear b).1.grid c.2 c.1 = 0 ∧
        cell2 (evaluate_and_clear b).1.grid_nums c.2 c.1 = 0 ∧
        ccell2 (evaluate_and_clear b).1.grid_colors c.2 c.1 = none) ∧
    evaluate_and_clear (evaluate_and_clear b).1 = ((evaluate_and_clear b).1, 0, 0) ∧
    (to_clear b = ∅ → evaluate_and_clear b = (b, 0, 0)) := by
  intro b hb
  refine ⟨?_, ?_, ?_⟩
  · rintro ⟨x, y⟩ hmem
    obtain ⟨hx, hy, hq⟩ := (mem_to_clear b x y).1 hmem
    have hocc : cell2 b.grid y x ≠ 0 := by
      rcases hq with hr | hc
      · exact (row_full_iff b y).1 ((row_clears_iff b y).1 hr).1 x hx
      · exact (col_full_iff b x).1 ((col_clears_iff b x).1 hc).1 y hy
    have hcond : (x, y) ∈ to_clear b ∧ cell2 b.grid y x ≠ 0 := ⟨hmem, hocc⟩
    refine ⟨?_, ?_, ?_⟩
    · rw [show (evaluate_and_clear b).1 = update_animations b (to_clear b) from rfl,
        cell2_update_grid b _ hb y x hy hx, if_pos hcond]
    · rw [show (evaluate_and_clear b).1 = update_animations b (to_clear b) from rfl,
        cell2_update_nums b _ hb y x hy hx, if_pos hcond]
    · rw [show (evaluate_and_clear b).1 = update_animations b (to_clear b) from rfl,
        ccell2_update_colors b _ hb y x hy hx, if_pos hcond]
  · have h2 := to_clear_update_self_empty b hb
    show evaluate_and_clear (update_animations b (to_clear b)) = _
    unfold evaluate_and_clear
    rw [h2]
    simp [update_animations_empty]
  · intro h0
    unfold evaluate_and_clear
    rw [h0]
    simp [update_animations_empty]

/-- C4 witness: the re-evaluation clause on a board that clears row 0,
    and the no-mutation clause on the empty board. -/
theorem c4_witness :
    (Wf (rowBoard [5, 5, 5, 5, 2, 2, 1]) ∧
      evaluate_and_clear (evaluate_and_clear (rowBoard [5, 5, 5, 5, 2, 2, 1])).1 =
        ((evaluate_and_clear (rowBoard [5, 5, 5, 5, 2, 2, 1])).1, 0, 0)) ∧
    (Wf emptyBoard ∧ (to_clear emptyBoard = ∅ →
      evaluate_and_clear emptyBoard = (emptyBoard, 0, 0))) :=
  ⟨⟨by decide, (c4_theorem _ (by decide)).2.1⟩, ⟨by decide, (c4_theorem _ (by decide)).2.2⟩⟩

/-- C5: each clear pass awards 15 points per distinct clear-set cell
    and adds them to the running score; on a board where row 3 and
    column 2 both qualify, the overlap cell counts once: 13 cells and
    195 points. -/
theorem c5_theorem :
    (∀ (b : Board) (score : Nat),
      check_and_animate b score =
        (spec_clear_set b,
          ((spec_clear_set b).card, POINTS_PER_CELL * (spec_clear_set b).card),
          score + POINTS_PER_CELL * (spec_clear_set b).card)) ∧
    (row_clears cross_board 3 = true ∧ col_clears cross_board 2 = true ∧
      (2, 3) ∈ to_clear cross_board ∧ (to_clear cross_board).card = 13 ∧
      (check_and_animate cross_board 0).2.2 = 195) := by
  constructor
  · intro b score
    unfold check_and_animate
    rw [to_clear_eq_spec b]
    simp [Nat.mul_comm]
  · refine ⟨by decide, by decide, by decide, by decide, by decide⟩

/-- C2 corrected: for a piece whose recorded h and w describe its shape
    matrix (h = number of rows, every row of length w — true of every
    rectangular shape the game builds), can_place is true iff every
    occupied cell maps in-bounds to an empty cell; can_place reads the
    board and mutates nothing (it is embedded as a pure function). -/
theorem c2_theorem (b : Board) (p : Piece) (x y : Int)
    (hh : p.h = p.shape.length) (hw : ∀ row ∈ p.shape, row.length = p.w) :
    can_place b p x y = true ↔
      ∀ dy dx, dy < p.shape.length → dx < (p.shape.getD dy []).length →
        cell2 p.shape dy dx ≠ 0 →
        0 ≤ x + dx ∧ x + dx < (GRID_SIZE : Int) ∧ 0 ≤ y + dy ∧
          y + dy < (GRID_SIZE : Int) ∧ cell2 b.grid (y + dy).toNat (x + dx).toNat = 0 := by
  have hrowlen : ∀ dy, dy < p.shape.length → (p.shape.getD dy []).length = p.w := by
    intro dy hdy
    apply hw
    rw [List.getD_eq_getElem _ _ hdy]
    exact List.getElem_mem hdy
  rw [can_place_iff]
  constructor
  · intro h dy dx hdy hdx hocc
    exact h dy (hh ▸ hdy) dx (by rw [hrowlen dy hdy] at hdx; exact hdx) hocc
  · intro h dy hdy dx hdx hocc
    have hdy2 : dy < p.shape.length := hh ▸ hdy
    exact h dy dx hdy2 (by rw [hrowlen dy hdy2]; exact hdx) hocc

/-- The Piece the constructor builds from the ragged plus-ish catalog
    template (fills drawn from the neutral range by the embedded random
    stream): shape [[3],[3,3],[3]] with h = 3 and w = 1. -/
def plus_piece : Piece :=
  (piece_init (SHAPES.getD 13 []) Bias.neutral [2, 2, 2, 2, 0]).1

/-- C2 counterexample: on the empty board at origin (6, 0) the check
    accepts the plus-ish piece although its occupied cell (dx, dy) =
    (1, 1) maps to column 7, out of bounds: the loop only scans
    dx < w = len(shape[0]) = 1 and never sees that cell. -/
theorem c2_counterexample :
    can_place emptyBoard plus_piece 6 0 = true ∧
    1 < plus_piece.shape.length ∧ 1 < (plus_piece.shape.getD 1 []).length ∧
    cell2 plus_piece.shape 1 1 ≠ 0 ∧
    ¬((6 : Int) + ((1 : Nat) : Int) < (GRID_SIZE : Int)) := by decide

/-- C2 witness: the amended equivalence instantiated on a rectangular
    single-cell piece on the empty board. -/
theorem c2_witness :
    ((piece_init (SHAPES.getD 0 []) Bias.neutral [3, 0]).1.h =
        (piece_init (SHAPES.getD 0 []) Bias.neutral [3, 0]).1.shape.length ∧
      (∀ row ∈ (piece_init (SHAPES.getD 0 []) Bias.neutral [3, 0]).1.shape,
        row.length = (piece_init (SHAPES.getD 0 []) Bias.neutral [3, 0]).1.w)) ∧
    (can_place emptyBoard (piece_init (SHAPES.getD 0 []) Bias.neutral [3, 0]).1 0 0 = true ↔
      ∀ dy dx, dy < (piece_init (SHAPES.getD 0 []) Bias.neutral [3, 0]).1.shape.length →
        dx < ((piece_init (SHAPES.getD 0 []) Bias.neutral [3, 0]).1.shape.getD dy []).length →
        cell2 (piece_init (SHAPES.getD 0 []) Bias.neutral [3, 0]).1.shape dy dx ≠ 0 →
        0 ≤ (0 : Int) + dx ∧ (0 : Int) + dx < (GRID_SIZE : Int) ∧ 0 ≤ (0 : Int) + dy ∧
          (0 : Int) + dy < (GRID_SIZE : Int) ∧
          cell2 emptyBoard.grid ((0 : Int) + dy).toNat ((0 : Int) + dx).toNat = 0) :=
  ⟨⟨by decide, by decide⟩, c2_theorem emptyBoard _ 0 0 (by decide) (by decide)⟩

/-- C8 as amended: the catalog holds exactly 14 templates, each a 0/1
    matrix with at least one occupied entry; the first 13 are
    rectangular, but the 14th (the plus-ish template) is ragged, with
    row lengths 1, 2, 1. -/
theorem c8_theorem :
    SHAPES.length = 14 ∧
    (∀ sh ∈ SHAPES, (∀ row ∈ sh, ∀ c ∈ row, c = 0 ∨ c = 1) ∧
      ∃ row ∈ sh, ∃ c ∈ row, c = 1) ∧
    (∀ sh ∈ SHAPES.take 13, ∀ row ∈ sh, row.length = (sh.headD []).length) ∧
    (SHAPES.getD 13 []).map List.length = [1, 2, 1] := by decide

/-- C8 counterexample: the 14th catalog entry is not a rectangular
    matrix — its rows have lengths 1, 2 and 1. -/
theorem c8_counterexample :
    SHAPES.getD 13 [] = [[1], [1, 1], [1]] ∧
    ¬ ∀ row ∈ SHAPES.getD 13 [], row.length = ((SHAPES.getD 13 []).headD []).length := by
  exact ⟨by decide, fun h => absurd (h [1, 1] (by decide)) (by decide)⟩

/-- Python `str.strip` whitespace. -/
def isPySpace (c : Char) : Bool :=
  c == ' ' || c == Char.ofNat 9 || c == Char.ofNat 10 ||
    c == Char.ofNat 13 || c == Char.ofNat 11 || c == Char.ofNat 12

/-- `text.strip()`. -/
def pyStrip (cs : List Char) : List Char :=
  ((cs.dropWhile isPySpace).reverse.dropWhile isPySpace).reverse

/-- Digit-string parse; none models `int(...)` raising ValueError. -/
def parseDigits (cs : List Char) : Option Nat :=
  match cs with
  | [] => none
  | _ =>
    cs.foldl
      (fun acc c =>
        match acc with
        | none => none
        | some n => if c.isDigit then some (n * 10 + (c.toNat - 48)) else none)
      (some 0)

/-- `int(text)` on a stripped string: optional sign then digits;
    anything else raises (returns none here). -/
def parsePyInt (cs : List Char) : Option Int :=
  match cs with
  | [] => none
  | c :: rest =>
    if c == Char.ofNat 45 then (parseDigits rest).map fun n => -(n : Int)
    else if c == Char.ofNat 43 then (parseDigits rest).map fun n => (n : Int)
    else (parseDigits (c :: rest)).map fun n => (n : Int)

/-- `load_best`: `file` is none when BEST_FILE is missing or opening or
    reading it raises (the bare except catches everything), otherwise
    the file text.  `int(f.read().strip() or "0")` parses the stripped
    text, an empty strip becoming "0"; a parse failure raises, is
    caught, and 0 is returned. -/
def load_best (file : Option (List Char)) : Int :=
  match file with
  | none => 0
  | some text =>
    let stripped := pyStrip text
    let content := if stripped = [] then [Char.ofNat 48] else stripped
    match parsePyInt content with
    | none => 0
    | some n => n

/-- The session state `save_best` could conceivably touch. -/
structure SessionState where
  score : Nat
  best : Nat
  board : Board
  pieces : List Piece

/-- `save_best`: best-effort write of `str(self.best)`; a failing write
    (writeOk = false) is swallowed by the bare except and the previous
    file content is kept.  No session field is assigned either way. -/
def save_best (st : SessionState) (writeOk : Bool) (file : Option (List Char)) :
    SessionState × Option (List Char) :=
  (st, if writeOk then some (Nat.toDigits 10 st.best) else file)

/-- C9: load_best returns 0 (and, being a total function of the read
    outcome, raises nothing) when the file is missing/unreadable (none),
    when the stripped text is empty, and when the text does not parse as
    an integer; save_best leaves every session field unchanged whether
    or not the write succeeds. -/
theorem c9_theorem :
    load_best none = 0 ∧
    (∀ text : List Char, pyStrip text = [] → load_best (some text) = 0) ∧
    (∀ text : List Char, parsePyInt (pyStrip text) = none → pyStrip text ≠ [] →
      load_best (some text) = 0) ∧
    (∀ (st : SessionState) (writeOk : Bool) (file : Option (List Char)),
      (save_best st writeOk file).1.score = st.score ∧
      (save_best st writeOk file).1.best = st.best ∧
      (save_best st writeOk file).1.board = st.board ∧
      (save_best st writeOk file).1.pieces = st.pieces) := by
  refine ⟨by decide, ?_, ?_, ?_⟩
  · intro text h
    simp only [load_best]
    rw [h]
    decide
  · intro text hparse hne
    simp only [load_best]
    rw [if_neg hne, hparse]
  · intro st writeOk file
    exact ⟨rfl, rfl, rfl, rfl⟩

/-- C9 witness: a corrupt one-character file loads as 0, and a failed
    write leaves a concrete session untouched. -/
theorem c9_witness :
    (parsePyInt (pyStrip [Char.ofNat 120]) = none ∧ pyStrip [Char.ofNat 120] ≠ [] ∧
      load_best (some [Char.ofNat 120]) = 0) ∧
    (save_best ⟨3, 7, emptyBoard, []⟩ false none).1.best = 7 :=
  ⟨⟨by decide, by decide, c9_theorem.2.2.1 [Char.ofNat 120] (by decide) (by decide)⟩,
    (c9_theorem.2.2.2 ⟨3, 7, emptyBoard, []⟩ false none).2.1⟩

/-- C10: a shape matrix whose cells are all 0/1 fails the
    contains_numbers test, so the constructor treats it as an unfilled
    template and rebuilds it through random_piece_from_shape — every
    occupied cell is overwritten with a fresh biased random fill.  In
    particular an intended all-1s numeric fill is not preserved: the
    template [[1, 1]] with the embedded stream [1, 2, 0] comes out as
    [[2, 3]], and under the high bias every fill is at least 3. -/
theorem c10_theorem :
    (∀ (shape : List (List Nat)) (bias : Bias) (s : RS),
      contains_numbers shape = false →
      (piece_init shape bias s).1.shape = (random_piece_from_shape shape bias s).1) ∧
    contains_numbers [[1, 1]] = false ∧
    (piece_init [[1, 1]] Bias.neutral [1, 2, 0]).1.shape = [[2, 3]] ∧
    (piece_init [[1, 1]] Bias.neutral [1, 2, 0]).1.shape ≠ [[1, 1]] ∧
    (piece_init [[1, 1]] Bias.high [0, 0, 0]).1.shape = [[3, 3]] := by
  refine ⟨?_, by decide, by decide, by decide, by decide⟩
  intro shape bias s h
  unfold piece_init
  rw [if_neg (by rw [h]; exact Bool.false_ne_true)]

/-- C10 witness: the general overwrite equation instantiated on the
    all-0/1 template [[1, 1]]. -/
theorem c10_witness :
    contains_numbers [[1, 1]] = false ∧
    (piece_init [[1, 1]] Bias.neutral [1, 2, 0]).1.shape =
      (random_piece_from_shape [[1, 1]] Bias.neutral [1, 2, 0]).1 :=
  ⟨by decide, c10_theorem.1 [[1, 1]] Bias.neutral [1, 2, 0] (by decide)⟩

/-- The kind tag of a near-line candidate. -/
inductive LineKind
  | row
  | col
deriving DecidableEq

/-- One candidate of `find_near_lines_and_needed`:
    (kind, idx, empties, needed_total). -/
structure Candidate where
  kind : LineKind
  idx : Nat
  empties : List Nat
  needed_total : Int
deriving DecidableEq

/-- Empty x positions of row y. -/
def row_empties (b : Board) (y : Nat) : List Nat :=
  (List.range GRID_SIZE).filter fun x => cell2 b.grid y x == 0

/-- Sum of the occupied values of row y. -/
def row_present_sum (b : Board) (y : Nat) : Nat :=
  (List.range GRID_SIZE).foldl
    (fun acc x => if cell2 b.grid y x == 0 then acc else acc + cell2 b.grid_nums y x) 0

/-- Empty y positions of column x. -/
def col_empties (b : Board) (x : Nat) : List Nat :=
  (List.range GRID_SIZE).filter fun y => cell2 b.grid y x == 0

/-- Sum of the occupied values of column x. -/
def col_present_sum (b : Board) (x : Nat) : Nat :=
  (List.range GRID_SIZE).foldl
    (fun acc y => if cell2 b.grid y x == 0 then acc else acc + cell2 b.grid_nums y x) 0

/-- `find_near_lines_and_needed(max_empty)`: rows first, then columns;
    keep a line when it has 1..max_empty empty cells and
    `needed_total = TARGET_SUM - s` lies in [1*len, 5*len]. -/
def find_near_lines_and_needed (b : Board) (max_empty : Nat) : List Candidate :=
  ((List.range GRID_SIZE).filterMap fun y =>
    let empties := row_empties b y
    let s := row_present_sum b y
    if 1 ≤ empties.length ∧ empties.length ≤ max_empty then
      let needed : Int := (TARGET_SUM : Int) - s
      if (empties.length : Int) ≤ needed ∧ needed ≤ 5 * empties.length then
        some ⟨.row, y, empties, needed⟩
      else none
    else none) ++
  ((List.range GRID_SIZE).filterMap fun x =>
    let empties := col_empties b x
    let s := col_present_sum b x
    if 1 ≤ empties.length ∧ empties.length ≤ max_empty then
      let needed : Int := (TARGET_SUM : Int) - s
      if (empties.length : Int) ≤ needed ∧ needed ≤ 5 * empties.length then
        some ⟨.col, x, empties, needed⟩
      else none
    else none)

/-- `occ_cells`: board coordinates of the occupied shape cells at
    origin (left, top), row-major. -/
def occ_cells (shape : List (List Nat)) (left top : Nat) : List (Nat × Nat) :=
  (List.range shape.length).flatMap fun dy =>
    (List.range (shape.headD []).length).filterMap fun dx =>
      if cell2 shape dy dx == 1 then some (left + dx, top + dy) else none

/-- The `positions` scan of the strategic row search: none models the
    loop breaking on a non-target cell that is out of bounds or
    occupied; otherwise the aligned cells (those of row y over the
    candidate's empty columns). -/
def positions_scan (b : Board) (shape : List (List Nat)) (y : Nat) (empties : List Nat)
    (top left : Nat) : Option (List (Nat × Nat)) :=
  let h := shape.length
  let w := (shape.headD []).length
  if (List.range h).all (fun dy =>
      (List.range w).all fun dx =>
        if cell2 shape dy dx == 1 then
          let gx := left + dx
          let gy := top + dy
          if gy == y ∧ gx ∈ empties then true
          else decide (gx < GRID_SIZE) && decide (gy < GRID_SIZE) &&
            (cell2 b.grid gy gx == 0)
        else true)
  then
    some ((List.range h).flatMap fun dy =>
      (List.range w).filterMap fun dx =>
        if cell2 shape dy dx == 1 ∧ top + dy == y ∧ (left + dx) ∈ empties then
          some (left + dx, top + dy)
        else none)
  else none

/-- `row_indices`: indices into occ_cells of the cells lying on the
    candidate row over an empty column. -/
def row_indices (cells : List (Nat × Nat)) (y : Nat) (empties : List Nat) : List Nat :=
  (List.range cells.length).filter fun i =>
    (cells.getD i (0, 0)).2 == y ∧ (cells.getD i (0, 0)).1 ∈ empties

/-- The `compositions(total, k, 1, 5)` generator, in generation order. -/
def compositions : Int → Nat → List (List Nat)
  | _, 0 => []
  | total, 1 => if 1 ≤ total ∧ total ≤ 5 then [[total.toNat]] else []
  | total, (k + 2) =>
    (List.range' 1 5).flatMap fun v =>
      (compositions (total - (v : Int)) (k + 1)).map fun rest => v :: rest

/-- `shape_numbers`: shape-local (dy, dx) |-> assigned part value. -/
def shape_numbers (cells : List (Nat × Nat)) (idxs : List Nat) (parts : List Nat)
    (left top : Nat) : List ((Nat × Nat) × Nat) :=
  (idxs.zip parts).map fun ip =>
    let c := cells.getD ip.1 (0, 0)
    ((c.2 - top, c.1 - left), ip.2)

/-- Build one row of `full_shape` (dx over range(shape_w)): assigned
    cells take their part value, other occupied cells a biased random
    fill, empty cells 0. -/
def build_cells (shape : List (List Nat)) (sn : List ((Nat × Nat) × Nat))
    (mn mx dy : Nat) : Nat → Nat → RS → List Nat × RS
  | 0, _, s => ([], s)
  | n + 1, dx, s =>
    let c := cell2 shape dy dx
    let (v, s1) :=
      if c == 1 then
        match sn.find? fun e => e.1 == (dy, dx) with
        | some e => (e.2, s)
        | none => randint mn mx s
      else (0, s)
    let (vs, s2) := build_cells shape sn mn mx dy n (dx + 1) s1
    (v :: vs, s2)

/-- Build `full_shape` (dy over range(shape_h)). -/
def build_shape (shape : List (List Nat)) (sn : List ((Nat × Nat) × Nat))
    (mn mx : Nat) : Nat → Nat → RS → List (List Nat) × RS
  | 0, _, s => ([], s)
  | n + 1, dy, s =>
    let (row, s1) := build_cells shape sn mn mx dy (shape.headD []).length 0 s
    let (rows, s2) := build_shape shape sn mn mx n (dy + 1) s1
    (row :: rows, s2)

/-- One parts attempt: build full_shape with the candidate's bias,
    construct `Piece(full_shape)` (default neutral bias) and accept it
    when it can be placed at (left, top). -/
def try_parts_one (b : Board) (shape : List (List Nat)) (cells : List (Nat × Nat))
    (idxs : List Nat) (left top : Nat) (parts : List Nat) (s : RS) : Option Piece × RS :=
  match build_shape shape (shape_numbers cells idxs parts left top)
      (biasRange (choose_bias_from_board b)).1 (biasRange (choose_bias_from_board b)).2
      shape.length 0 s with
  | (fs, s1) =>
    match piece_init fs Bias.neutral s1 with
    | (cand, s2) =>
      if can_place b cand (Int.ofNat left) (Int.ofNat top) then (some cand, s2)
      else (none, s2)

/-- Run `f` over the list until it produces a piece, threading the
    random stream (the common for-loop-with-return pattern). -/
def firstSome (f : α → RS → Option β × RS) : List α → RS → Option β × RS
  | [], s => (none, s)
  | a :: rest, s =>
    match f a s with
    | (some p, s1) => (some p, s1)
    | (none, s1) => firstSome f rest s1

/-- The relaxed target sums: needed_total - 1 down to
    max(0, needed_total - 6) (`range(needed-1, max(0, needed-6)-1, -1)`). -/
def relaxed_sums (needed : Int) : List Int :=
  let lo := max 0 (needed - 6)
  (List.range (needed - lo).toNat).map fun i => needed - 1 - i

/-- One relaxed-sum attempt: skipped unless `1*k <= t <= 5*k`. -/
def try_sum_one (b : Board) (shape : List (List Nat)) (cells : List (Nat × Nat))
    (idxs : List Nat) (left top : Nat) (t : Int) (s : RS) : Option Piece × RS :=
  if (idxs.length : Int) ≤ t ∧ t ≤ 5 * idxs.length then
    firstSome (try_parts_one b shape cells idxs left top) (compositions t idxs.length) s
  else (none, s)

/-- The body for one (top, left) origin of the strategic row search
    (`cells` and `idxs` abbreviate `occ_cells` and `row_indices` of
    this origin). -/
def try_origin_row (b : Board) (shape : List (List Nat)) (y : Nat) (empties : List Nat)
    (needed : Int) (top left : Nat) (s : RS) : Option Piece × RS :=
  match positions_scan b shape y empties top left with
  | none => (none, s)
  | some ps =>
    if ps = [] then (none, s)
    else if row_indices (occ_cells shape left top) y empties = [] then (none, s)
    else
      match firstSome
          (try_parts_one b shape (occ_cells shape left top)
            (row_indices (occ_cells shape left top) y empties) left top)
          (compositions needed (row_indices (occ_cells shape left top) y empties).length)
          s with
      | (some p, s1) => (some p, s1)
      | (none, s1) =>
        firstSome
          (fun t s2 =>
            try_sum_one b shape (occ_cells shape left top)
              (row_indices (occ_cells shape left top) y empties) left top t s2)
          (relaxed_sums needed) s1

/-- An inclusive integer range as a list. -/
def int_range_incl (a bnd : Int) : List Int :=
  (List.range (bnd + 1 - a).toNat).map fun i => a + i

/-- `range(max(0, y-h+1), min(size-h, y)+1)`. -/
def tops_for (y h : Nat) : List Nat :=
  (int_range_incl (max 0 ((y : Int) - h + 1)) (min ((GRID_SIZE : Int) - h) (y : Int))).map
    Int.toNat

/-- `range(0, size-w+1)`. -/
def lefts_for (w : Nat) : List Nat :=
  (int_range_incl 0 ((GRID_SIZE : Int) - w)).map Int.toNat

/-- All origins of one shape for a row candidate. -/
def try_shape_row (b : Board) (y : Nat) (empties : List Nat) (needed : Int)
    (shape : List (List Nat)) (s : RS) : Option Piece × RS :=
  firstSome
    (fun top s1 =>
      firstSome (fun left s2 => try_origin_row b shape y empties needed top left s2)
        (lefts_for (shape.headD []).length) s1)
    (tops_for y shape.length) s

/-- The per-candidate body of the strategic branch.  The source only
    has an `if kind == "row":` arm; a column candidate matches no arm
    and falls through with no search at all. -/
def try_candidate (b : Board) (c : Candidate) (s : RS) : Option Piece × RS :=
  match c.kind with
  | .row =>
    firstSome (fun shape s1 => try_shape_row b c.idx c.empties c.needed_total shape s1)
      SHAPES s
  | .col => (none, s)

/-- The strategic branch: collect candidates, shuffle, and try each. -/
def strategic_branch (b : Board) (s : RS) : Option Piece × RS :=
  let (cands, s1) := rshuffle (find_near_lines_and_needed b 3) s
  firstSome (try_candidate b) cands s1

/-- `sum(sum(row) for row in s)`. -/
def shape_cell_count (shape : List (List Nat)) : Nat :=
  (shape.map List.sum).sum

/-- Shapes with at most 2 cells. -/
def small_shapes : List (List (List Nat)) :=
  SHAPES.filter fun sh => shape_cell_count sh ≤ 2

/-- Shapes with 3 or 4 cells. -/
def medium_shapes : List (List (List Nat)) :=
  SHAPES.filter fun sh => 3 ≤ shape_cell_count sh ∧ shape_cell_count sh ≤ 4

/-- Shapes with at least 4 cells. -/
def large_shapes : List (List (List Nat)) :=
  SHAPES.filter fun sh => 4 ≤ shape_cell_count sh

/-- `[s for s in SHAPES if sum(...) > 1]` (the variety pool). -/
def multi_shapes : List (List (List Nat)) :=
  SHAPES.filter fun sh => 1 < shape_cell_count sh

/-- Number of empty board cells. -/
def free_cells (b : Board) : Nat :=
  (List.range GRID_SIZE).foldl
    (fun acc r =>
      (List.range GRID_SIZE).foldl
        (fun a c => if cell2 b.grid r c == 0 then a + 1 else a) acc)
    0

/-- The shape pool the exploratory loop draws from, by free-cell count. -/
def explore_pool (free : Nat) : List (List (List Nat)) :=
  if free ≤ 10 then small_shapes ++ medium_shapes
  else if free ≤ 20 then medium_shapes ++ small_shapes ++ large_shapes
  else SHAPES

/-- The body of one exploratory try: pick a shape from the pool, avoid
    the monomino when the single-5 throttle is active, instantiate the
    piece with the biased fill, and update the consecutive-single-5s
    counter.  Returns (piece, new counter, stream). -/
def explore_pick (free : Nat) (bias : Bias) (c5 : Nat) (s : RS) : Piece × Nat × RS :=
  let (shape, s1) := rchoice (explore_pool free) [[1]] s
  let (shape, s2) :=
    if shape.length == 1 ∧ (shape.headD []).length == 1 ∧ 2 ≤ c5 then
      rchoice multi_shapes [[1, 1]] s1
    else (shape, s1)
  let (p, s3) := piece_init shape bias s2
  let c5a :=
    if p.shape.length == 1 ∧ (p.shape.headD []).length == 1 ∧ cell2 p.shape 0 0 == 5 then
      c5 + 1
    else 0
  (p, c5a, s3)

/-- The bounded exploratory loop, with `fuel` remaining tries and `c5`
    the consecutive-single-5s counter. -/
def explore_try (b : Board) (free : Nat) (bias : Bias) :
    Nat → Nat → RS → Option Piece × Nat × RS
  | 0, c5, s => (none, c5, s)
  | fuel + 1, c5, s =>
    match explore_pick free bias c5 s with
    | (p, c5a, s3) =>
      if (find_any_pos b p).isSome then (some p, c5a, s3)
      else explore_try b free bias fuel c5a s3

/-- The exploratory phase of `generate_placeable_piece`: 150 bounded
    tries, then the variety fallback (re-validated), then the absolute
    fallback `Piece([[1, 1]], bias)` returned with no validation. -/
def generate_exploratory (b : Board) (c5r : Nat) (s2 : RS) : Piece × Nat :=
  match explore_try b (free_cells b) (choose_bias_from_board b) 150 c5r s2 with
  | (some p, c5a, _) => (p, c5a)
  | (none, c5a, s3) =>
    if multi_shapes = [] then
      match piece_init [[1, 1]] (choose_bias_from_board b) s3 with
      | (p2, _) => (p2, c5a)
    else
      match rchoice multi_shapes [[1, 1]] s3 with
      | (sh, s4) =>
        match piece_init sh (choose_bias_from_board b) s4 with
        | (p, s5) =>
          if (find_any_pos b p).isSome then (p, c5a)
          else
            match piece_init [[1, 1]] (choose_bias_from_board b) s5 with
            | (p2, _) => (p2, c5a)

/-- `generate_placeable_piece(tries=150)`.  `reset` models the
    `time_since_last > 5.0` counter reset; the last_piece_time update
    has no other observable effect and is not modelled.  The strategic
    branch runs with probability 0.3, its result is returned when it
    finds a piece, and otherwise the exploratory phase runs.  Returns
    the piece and the updated consecutive-single-5s counter. -/
def generate_placeable_piece (b : Board) (c5 : Nat) (reset : Bool) (s : RS) :
    Piece × Nat :=
  let c5r := if reset then 0 else c5
  match rbool3 s with
  | (strat, s1) =>
    match (if strat then strategic_branch b s1 else (none, s1)) with
    | (some p, _) => (p, c5r)
    | (none, s2) => generate_exploratory b c5r s2

theorem find_any_pos_sound (b : Board) (p : Piece) (hs : (find_any_pos b p).isSome = true) :
    ∃ x y : Int, can_place b p x y = true := by
  rcases hfa : find_any_pos b p with _ | ⟨x, y⟩
  · rw [hfa] at hs; simp at hs
  · unfold find_any_pos at hfa
    obtain ⟨yy, hyy, h2⟩ := List.exists_of_findSome?_eq_some hfa
    obtain ⟨xx, hxx, h3⟩ := List.exists_of_findSome?_eq_some h2
    by_cases hc : can_place b p (Int.ofNat xx) (Int.ofNat yy) = true
    · exact ⟨Int.ofNat xx, Int.ofNat yy, hc⟩
    · rw [if_neg hc] at h3
      exact absurd h3 (Option.noConfusion)

theorem firstSome_sound (f : α → RS → Option β × RS) (P : β → Prop)
    (hf : ∀ a s p s2, f a s = (some p, s2) → P p) :
    ∀ (l : List α) (s : RS) (p : β) (s2 : RS), firstSome f l s = (some p, s2) → P p := by
  intro l
  induction l with
  | nil =>
    intro s p s2 h
    simp [firstSome] at h
  | cons a rest ih =>
    intro s p s2 h
    unfold firstSome at h
    rcases hfa : f a s with ⟨fo, fs⟩
    rw [hfa] at h
    cases fo with
    | some q =>
      injection h with h1 h2
      exact (Option.some.inj h1) ▸ hf a s q fs hfa
    | none => exact ih fs p s2 h

theorem try_parts_one_sound (b : Board) (shape : List (List Nat)) (cells : List (Nat × Nat))
    (idxs : List Nat) (left top : Nat) (parts : List Nat) (s : RS) (p : Piece) (s2 : RS)
    (h : try_parts_one b shape cells idxs left top parts s = (some p, s2)) :
    ∃ x y : Int, can_place b p x y = true := by
  unfold try_parts_one at h
  split at h
  split at h
  split at h
  · injection h with h1 h2
    exact ⟨Int.ofNat left, Int.ofNat top, (Option.some.inj h1) ▸ (by assumption)⟩
  · exact absurd h (by simp)

theorem try_sum_one_sound (b : Board) (shape : List (List Nat)) (cells : List (Nat × Nat))
    (idxs : List Nat) (left top : Nat) (t : Int) (s : RS) (p : Piece) (s2 : RS)
    (h : try_sum_one b shape cells idxs left top t s = (some p, s2)) :
    ∃ x y : Int, can_place b p x y = true := by
  unfold try_sum_one at h
  split at h
  · exact firstSome_sound _ (fun q => ∃ x y : Int, can_place b q x y = true)
      (fun a s3 q s4 hq => try_parts_one_sound b shape cells idxs left top a s3 q s4 hq)
      _ s p s2 h
  · exact absurd h (by simp)

theorem try_origin_row_sound (b : Board) (shape : List (List Nat)) (y : Nat)
    (empties : List Nat) (needed : Int) (top left : Nat) (s : RS) (p : Piece) (s2 : RS)
    (h : try_origin_row b shape y empties needed top left s = (some p, s2)) :
    ∃ x y2 : Int, can_place b p x y2 = true := by
  unfold try_origin_row at h
  split at h
  · exact absurd h (by simp)
  · split at h
    · exact absurd h (by simp)
    · split at h
      · exact absurd h (by simp)
      · rcases hfs : firstSome (try_parts_one b shape (occ_cells shape left top)
            (row_indices (occ_cells shape left top) y empties) left top)
            (compositions needed (row_indices (occ_cells shape left top) y empties).length) s
          with ⟨fo, fs⟩
        rw [hfs] at h
        cases fo with
        | some q =>
          injection h with h1 h2
          exact (Option.some.inj h1) ▸
            firstSome_sound _ (fun r => ∃ x y2 : Int, can_place b r x y2 = true)
              (fun a s3 r s4 hr =>
                try_parts_one_sound b shape _ _ left top a s3 r s4 hr) _ s q fs hfs
        | none =>
          exact firstSome_sound _ (fun r => ∃ x y2 : Int, can_place b r x y2 = true)
            (fun a s3 r s4 hr =>
              try_sum_one_sound b shape _ _ left top a s3 r s4 hr) _ fs p s2 h

theorem try_shape_row_sound (b : Board) (y : Nat) (empties : List Nat) (needed : Int)
    (shape : List (List Nat)) (s : RS) (p : Piece) (s2 : RS)
    (h : try_shape_row b y empties needed shape s = (some p, s2)) :
    ∃ x y2 : Int, can_place b p x y2 = true := by
  unfold try_shape_row at h
  refine firstSome_sound _ (fun r => ∃ x y2 : Int, can_place b r x y2 = true) ?_ _ s p s2 h
  intro top s3 q s4 hq
  refine firstSome_sound _ (fun r => ∃ x y2 : Int, can_place b r x y2 = true) ?_ _ s3 q s4 hq
  intro left s5 r s6 hr
  exact try_origin_row_sound b shape y empties needed top left s5 r s6 hr

theorem try_candidate_sound (b : Board) (c : Candidate) (s : RS) (p : Piece) (s2 : RS)
    (h : try_candidate b c s = (some p, s2)) :
    ∃ x y : Int, can_place b p x y = true := by
  unfold try_candidate at h
  cases hk : c.kind with
  | row =>
    rw [hk] at h
    refine firstSome_sound _ (fun r => ∃ x y : Int, can_place b r x y = true) ?_ _ s p s2 h
    intro shape s3 q s4 hq
    exact try_shape_row_sound b c.idx c.empties c.needed_total shape s3 q s4 hq
  | col =>
    rw [hk] at h
    exact absurd h (by simp)

theorem strategic_branch_sound (b : Board) (s : RS) (p : Piece) (s2 : RS)
    (h : strategic_branch b s = (some p, s2)) :
    ∃ x y : Int, can_place b p x y = true := by
  unfold strategic_branch at h
  exact firstSome_sound _ (fun r => ∃ x y : Int, can_place b r x y = true)
    (fun c s3 q s4 hq => try_candidate_sound b c s3 q s4 hq) _ _ p s2 h

theorem explore_try_sound (b : Board) (free : Nat) (bias : Bias) :
    ∀ (fuel c5 : Nat) (s : RS) (p : Piece) (c5a : Nat) (s3 : RS),
      explore_try b free bias fuel c5 s = (some p, c5a, s3) →
        (find_any_pos b p).isSome = true := by
  intro fuel
  induction fuel with
  | zero =>
    intro c5 s p c5a s3 h
    simp [explore_try] at h
  | succ n ih =>
    intro c5 s p c5a s3 h
    rw [explore_try] at h
    split at h
    split at h
    · injection h with h1 h2
      rw [← Option.some.inj h1]
      assumption
    · exact ih _ _ p c5a s3 h

/-- can_place only depends on the h/w window and the occupancy pattern
    of the shape, not on the cell values. -/
theorem can_place_congr (b : Board) (p q : Piece) (hh : p.h = q.h) (hw : p.w = q.w)
    (hocc : ∀ dy dx, dy < p.h → dx < p.w →
      (cell2 p.shape dy dx ≠ 0 ↔ cell2 q.shape dy dx ≠ 0)) (x y : Int)
    (hq : can_place b q x y = true) : can_place b p x y = true := by
  rw [can_place_iff]
  intro dy hdy dx hdx hpocc
  have h2 := (can_place_iff b q x y).1 hq dy (hh ▸ hdy) dx (hw ▸ hdx)
    ((hocc dy dx hdy hdx).1 hpocc)
  exact h2

/-- The occupancy facts of the absolute-fallback piece
    `Piece([[1, 1]], bias)`: a 1x2 window with both cells filled by a
    nonzero biased value. -/
theorem fallback_domino_occ (bias : Bias) (s : RS) :
    (piece_init [[1, 1]] bias s).1.h = 1 ∧ (piece_init [[1, 1]] bias s).1.w = 2 ∧
      ∀ dy dx, dy < 1 → dx < 2 → cell2 (piece_init [[1, 1]] bias s).1.shape dy dx ≠ 0 := by
  cases bias <;>
  · refine ⟨rfl, rfl, ?_⟩
    intro dy dx h1 h2
    interval_cases dy <;> interval_cases dx <;>
      simp [piece_init, contains_numbers, random_piece_from_shape, fillRows, fillRow,
        randint, rnext, biasRange, cell2]

/-- A canonical piece with the [[1, 1]] occupancy pattern. -/
def domino_probe : Piece :=
  { shape := [[1, 1]], h := 1, w := 2, color := blueColor }

/-- C1 as amended: on every board where the horizontal domino pattern
    has some legal origin (in particular on every board with two
    horizontally adjacent empty cells), generate_placeable_piece
    returns a placeable piece for every random stream, counter state
    and reset flag: the strategic branch, exploratory tries and variety
    fallback only return validated pieces, and the absolute fallback is
    itself a domino.  (Without that proviso the guarantee fails: the
    absolute fallback is returned unvalidated.) -/
theorem c1_theorem (b : Board) (c5 : Nat) (reset : Bool) (s : RS)
    (hdom : ∃ x y : Int, can_place b domino_probe x y = true) :
    ∃ x y : Int, can_place b (generate_placeable_piece b c5 reset s).1 x y = true := by
  have hfb : ∀ (bias : Bias) (s2 : RS),
      ∃ x y : Int, can_place b (piece_init [[1, 1]] bias s2).1 x y = true := by
    intro bias s2
    obtain ⟨x, y, hxy⟩ := hdom
    obtain ⟨hh, hw, hocc⟩ := fallback_domino_occ bias s2
    refine ⟨x, y, can_place_congr b _ domino_probe (by rw [hh]; rfl) (by rw [hw]; rfl)
      ?_ x y hxy⟩
    intro dy dx h1 h2
    rw [hh] at h1
    rw [hw] at h2
    constructor
    · intro _
      interval_cases dy <;> interval_cases dx <;> simp [domino_probe, cell2]
    · intro _
      exact hocc dy dx h1 h2
  have hexp : ∀ (c5r : Nat) (s2 : RS),
      ∃ x y : Int, can_place b (generate_exploratory b c5r s2).1 x y = true := by
    intro c5r s2
    unfold generate_exploratory
    rcases het : explore_try b (free_cells b) (choose_bias_from_board b) 150 c5r s2
      with ⟨fo, c5a, s3⟩
    cases fo with
    | some p =>
      exact find_any_pos_sound b p (explore_try_sound b _ _ 150 _ _ p c5a s3 het)
    | none =>
      dsimp only
      split
      · exact hfb _ _
      · split
        · rename_i hfind
          exact find_any_pos_sound b _ hfind
        · exact hfb _ _
  rcases hb : rbool3 s with ⟨strat, s1⟩
  rcases hg : generate_placeable_piece b c5 reset s with ⟨pout, c5out⟩
  unfold generate_placeable_piece at hg
  rw [hb] at hg
  simp only at hg
  rcases hbr : (if strat = true then strategic_branch b s1 else (none, s1)) with ⟨fo, s2⟩
  rw [hbr] at hg
  cases fo with
  | some p =>
    simp only at hg
    injection hg with h1 h2
    cases strat with
    | true =>
      rw [if_pos rfl] at hbr
      exact h1 ▸ strategic_branch_sound b s1 p s2 hbr
    | false =>
      rw [if_neg (by simp)] at hbr
      exact absurd hbr (by simp)
  | none =>
    simp only at hg
    have := hexp (if reset then 0 else c5) s2
    rw [hg] at this
    exact this

/-- C1 witness: the amended guarantee on the empty board (where the
    domino pattern is placeable at the origin). -/
theorem c1_witness :
    (∃ x y : Int, can_place emptyBoard domino_probe x y = true) ∧
    ∃ x y : Int,
      can_place emptyBoard (generate_placeable_piece emptyBoard 0 false [5, 0, 2, 0]).1
        x y = true :=
  ⟨⟨0, 0, by decide⟩, c1_theorem emptyBoard 0 false [5, 0, 2, 0] ⟨0, 0, by decide⟩⟩

/-- Placeholder piece for out-of-range slot reads (never reached on
    well-formed states). -/
def default_piece : Piece := { shape := [[1]], h := 1, w := 1, color := blueColor }

/-- The session state reachability tracks: the board, the three piece
    slots and the consecutive-single-5s counter. -/
abbrev GameTuple := Board × List Piece × Nat

/-- The game constructor: three pieces generated in sequence on the
    empty board (the counter starts at 0 and threads through). -/
def init_state (r1 r2 r3 : Bool) (s1 s2 s3 : RS) : GameTuple :=
  let g1 := generate_placeable_piece emptyBoard 0 r1 s1
  let g2 := generate_placeable_piece emptyBoard g1.2 r2 s2
  let g3 := generate_placeable_piece emptyBoard g2.2 r3 s3
  (emptyBoard, [g1.1, g2.1, g3.1], g3.2)

/-- One `place_piece` turn at the session level: write the piece into
    the board, regenerate the used slot on the just-placed board, then
    let the clearing evaluation (including the animation completing)
    resolve. -/
def step_state (st : GameTuple) (i x y : Nat) (r : Bool) (s : RS) : GameTuple :=
  let p := st.2.1.getD i default_piece
  let b1 := place_on_board st.1 p x y
  let g := generate_placeable_piece b1 st.2.2 r s
  ((evaluate_and_clear b1).1, st.2.1.set i g.1, g.2)

/-- Session states reachable through legal play: the freshly
    constructed game, and any legal placement from a reachable state
    (any random stream, any timing of the counter reset). -/
inductive Reach : GameTuple → Prop
  | init (r1 r2 r3 : Bool) (s1 s2 s3 : RS) : Reach (init_state r1 r2 r3 s1 s2 s3)
  | step (st : GameTuple) (i x y : Nat) (r : Bool) (s : RS) (h : Reach st)
      (hi : i < st.2.1.length)
      (hcp : can_place st.1 (st.2.1.getD i default_piece) (Int.ofNat x) (Int.ofNat y) = true) :
      Reach (step_state st i x y r s)

/-- A board is reachable when some reachable session state holds it. -/
def Reachable (b : Board) : Prop := ∃ ps c5, Reach (b, ps, c5)

/-- One scripted move: the slot to place, the origin, and the counter
    reset and random stream of the slot regeneration. -/
structure Move where
  slot : Nat
  x : Nat
  y : Nat
  reset : Bool
  regen : RS

/-- Run a list of scripted moves, checking legality of each placement. -/
def run_moves : GameTuple → List Move → Option GameTuple
  | st, [] => some st
  | st, m :: rest =>
    if m.slot < st.2.1.length ∧
        can_place st.1 (st.2.1.getD m.slot default_piece)
          (Int.ofNat m.x) (Int.ofNat m.y) = true then
      run_moves (step_state st m.slot m.x m.y m.reset m.regen) rest
    else none

theorem reach_of_run (ms : List Move) :
    ∀ st st2 : GameTuple, Reach st → run_moves st ms = some st2 → Reach st2 := by
  induction ms with
  | nil =>
    intro st st2 h hr
    unfold run_moves at hr
    exact (Option.some.inj hr) ▸ h
  | cons m rest ih =>
    intro st st2 h hr
    unfold run_moves at hr
    split at hr
    · rename_i hcond
      exact ih _ st2 (Reach.step st m.slot m.x m.y m.reset m.regen h hcond.1 hcond.2) hr
    · exact absurd hr (by simp)

/-- The board with column 0 empty and every other cell occupied with
    value 3 — a reachable, non-full board with no two horizontally
    adjacent empty cells. -/
def b_one_col : Board :=
  { grid := List.replicate GRID_SIZE (0 :: List.replicate 6 1)
    grid_nums := List.replicate GRID_SIZE (0 :: List.replicate 6 3)
    grid_colors := List.replicate GRID_SIZE (none :: List.replicate 6 (some blueColor)) }

/-- A stream on which the generator never tries a placeable shape: the
    strategic branch is skipped, all 150 exploratory tries and the
    variety fallback draw the horizontal domino (unplaceable on
    b_one_col), and the absolute fallback is returned unvalidated. -/
def evil_s : RS :=
  5 :: (List.replicate 150 [1, 0, 0, 0]).flatten ++ [0, 0, 0, 0, 0, 0, 0]

/-- The moves that fill columns 1..6 with all-3 vertical pieces (three
    pieces per column), always playing slot 0 and regenerating it. -/
def trace_moves : List Move :=
  [⟨0, 1, 0, false, [5, 2, 2, 2, 0]⟩,
   ⟨0, 1, 3, false, [5, 2, 2, 2, 0]⟩,
   ⟨0, 1, 5, false, [5, 4, 2, 2, 2, 0]⟩,
   ⟨0, 2, 0, false, [5, 2, 2, 2, 0]⟩,
   ⟨0, 2, 3, false, [5, 2, 2, 2, 0]⟩,
   ⟨0, 2, 5, false, [5, 4, 2, 2, 2, 0]⟩,
   ⟨0, 3, 0, false, [5, 2, 2, 2, 0]⟩,
   ⟨0, 3, 3, false, [5, 2, 2, 2, 0]⟩,
   ⟨0, 3, 5, false, [5, 4, 2, 2, 2, 0]⟩,
   ⟨0, 4, 0, false, [5, 2, 2, 2, 0]⟩,
   ⟨0, 4, 3, false, [5, 2, 2, 2, 0]⟩,
   ⟨0, 4, 5, false, [5, 4, 2, 2, 2, 0]⟩,
   ⟨0, 5, 0, false, [5, 12, 2, 2, 0]⟩,
   ⟨0, 5, 3, false, [5, 12, 2, 2, 0]⟩,
   ⟨0, 5, 5, false, [5, 1, 2, 2, 2, 0]⟩,
   ⟨0, 6, 0, false, [5, 12, 2, 2, 0]⟩,
   ⟨0, 6, 3, false, [5, 2, 2, 2, 0]⟩,
   ⟨0, 6, 5, false, [5, 0, 2, 0]⟩]

/-- A piece whose occupied cell (0,0) cannot be placed anywhere when
    all 49 in-bounds origins fail. -/
theorem can_place_oob_false (b : Board) (p : Piece)
    (hocc : cell2 p.shape 0 0 ≠ 0) (hh : 0 < p.h) (hw : 0 < p.w)
    (hall : ∀ x < GRID_SIZE, ∀ y < GRID_SIZE,
      can_place b p (Int.ofNat x) (Int.ofNat y) = false) :
    ∀ x y : Int, can_place b p x y = false := by
  intro x y
  cases hcp : can_place b p x y with
  | false => rfl
  | true =>
    exfalso
    have h0 := (can_place_iff b p x y).1 hcp 0 hh 0 hw hocc
    obtain ⟨h1, h2, h3, h4, _⟩ := h0
    have hx0 : (0 : Int) ≤ x := by simpa using h1
    have hy0 : (0 : Int) ≤ y := by simpa using h3
    have hx7i : x < (GRID_SIZE : Int) := by simpa using h2
    have hy7i : y < (GRID_SIZE : Int) := by simpa using h4
    have hx7 : x.toNat < GRID_SIZE := by
      simp only [GRID_SIZE] at hx7i ⊢
      omega
    have hy7 : y.toNat < GRID_SIZE := by
      simp only [GRID_SIZE] at hy7i ⊢
      omega
    have hfalse := hall x.toNat hx7 y.toNat hy7
    rw [Int.ofNat_eq_natCast, Int.ofNat_eq_natCast, Int.toNat_of_nonneg hx0,
      Int.toNat_of_nonneg hy0, hcp] at hfalse
    exact absurd hfalse (by simp)

/-- C1 counterexample: b_one_col is reachable through legal play (with
    the session counter at 0), it is not full, yet an invocation of the
    generator on it (counter 0, no timing reset, stream evil_s) returns
    the unvalidated absolute-fallback domino, which has no legal origin
    anywhere. -/
theorem c1_counterexample :
    (∃ ps : List Piece, Reach (b_one_col, ps, 0)) ∧
    cell2 b_one_col.grid 0 0 = 0 ∧
    (∀ x y : Int,
      can_place b_one_col (generate_placeable_piece b_one_col 0 false evil_s).1 x y = false) := by
  refine ⟨?_, by decide, ?_⟩
  · have h2 : (run_moves (init_state false false false [5, 4, 2, 2, 2, 0] [5, 0, 2, 0]
        [5, 0, 2, 0]) trace_moves).map (fun st => (st.1, st.2.2)) = some (b_one_col, 0) := by
      decide
    rcases hr : run_moves (init_state false false false [5, 4, 2, 2, 2, 0] [5, 0, 2, 0]
        [5, 0, 2, 0]) trace_moves with _ | st2
    · rw [hr] at h2
      exact absurd h2 (by simp)
    · rw [hr] at h2
      simp only [Option.map_some', Option.some.injEq, Prod.mk.injEq] at h2
      have hreach : Reach st2 :=
        reach_of_run trace_moves _ st2 (Reach.init false false false _ _ _) hr
      refine ⟨st2.2.1, ?_⟩
      have hst : st2 = (b_one_col, st2.2.1, 0) := by
        rw [← h2.1, ← h2.2]
      rw [← hst]
      exact hreach
  · have hgen : (generate_placeable_piece b_one_col 0 false evil_s).1 =
        { shape := [[1, 1]], h := 1, w := 2, color := blueColor } := by decide
    rw [hgen]
    apply can_place_oob_false
    · decide
    · decide
    · decide
    · decide

/-- A board whose only near-line candidate is column 0 (two empties at
    y = 5, 6, present sum 18, needed 7). -/
def b6 : Board :=
  { grid := [[1,1,1,1,1,1,1],[1,1,1,1,1,1,1],[1,1,1,1,1,1,1],[1,1,1,1,1,1,1],
             [1,1,1,1,1,1,1],[0,1,1,1,1,1,1],[0,1,1,1,1,1,1]]
    grid_nums := [[4,2,2,2,2,2,2],[4,2,2,2,2,2,2],[4,2,2,2,2,2,2],[4,2,2,2,2,2,2],
                  [2,2,2,2,2,2,2],[0,5,5,5,5,5,5],[0,5,5,5,5,5,5]]
    grid_colors := List.replicate GRID_SIZE (List.replicate GRID_SIZE (some blueColor)) }

/-- The transpose of b6: its only candidate is row 0 with the same
    empties, present sum and needed total. -/
def b6t : Board :=
  { grid := [[1,1,1,1,1,0,0],[1,1,1,1,1,1,1],[1,1,1,1,1,1,1],[1,1,1,1,1,1,1],
             [1,1,1,1,1,1,1],[1,1,1,1,1,1,1],[1,1,1,1,1,1,1]]
    grid_nums := [[4,4,4,4,2,0,0],[2,2,2,2,2,5,5],[2,2,2,2,2,5,5],[2,2,2,2,2,5,5],
                  [2,2,2,2,2,5,5],[2,2,2,2,2,5,5],[2,2,2,2,2,5,5]]
    grid_colors := List.replicate GRID_SIZE (List.replicate GRID_SIZE (some blueColor)) }

/-- A vertical domino valued 3 and 4 (as built by the Piece
    constructor from an already-numbered matrix): it would complete
    b6's column-0 candidate exactly. -/
def completer : Piece := (piece_init [[3], [4]] Bias.neutral [0]).1

/-- C6, the code-side facts: the candidate collection does find the
    column candidate (kind "col", index 0, empties 5 and 6, needed 7),
    but the strategic branch returns nothing on b6 for every random
    stream, because its search only has an `if kind == "row"` arm —
    even though a piece completing the column exists and clears it.  On
    the transposed board b6t the same candidate appears as a row and
    the very same search succeeds. -/
theorem c6_theorem :
    find_near_lines_and_needed b6 3 = [⟨.col, 0, [5, 6], 7⟩] ∧
    (∀ s : RS, (strategic_branch b6 s).1 = none) ∧
    (can_place b6 completer 0 5 = true ∧
      (to_clear (place_on_board b6 completer 0 5)).card = 7) ∧
    find_near_lines_and_needed b6t 3 = [⟨.row, 0, [5, 6], 7⟩] ∧
    (strategic_branch b6t (List.replicate 60 0)).1.isSome = true := by
  have hc : find_near_lines_and_needed b6 3 = [⟨.col, 0, [5, 6], 7⟩] := by decide
  refine ⟨hc, ?_, ⟨by decide, by decide⟩, by decide, by decide⟩
  intro s
  unfold strategic_branch
  rw [hc]
  simp [rshuffle, rshuffleGo, rnext, firstSome, try_candidate]

/-- CLEAR_ANIM = 0.45 seconds, as an exact rational. -/
def CLEAR_ANIM : ℚ := Rat.divInt 45 100

/-- TIMER_SECONDS = 180, as the rational the timer comparison uses. -/
def TIMER_SECONDS_Q : ℚ := 180

/-- The full in-game state of `BlockBlastGame` (rendering-only fields
    such as particles and popups are omitted; wall-clock times are
    rationals relative to program start). -/
structure PlayState where
  board : Board
  pieces : List Piece
  c5 : Nat
  score : Nat
  best : Nat
  game_over : Bool
  paused : Bool
  timed_mode : Bool
  start_time : ℚ
  now : ℚ
  selected : Option Nat
  dragging : Bool
  anims : List (ℚ × Finset (Nat × Nat))

/-- `any_move_possible`: some held piece has some legal origin. -/
def any_move_possible (st : PlayState) : Bool :=
  st.pieces.any fun p => (find_any_pos st.board p).isSome

/-- `place_piece(idx, piece, x, y)`: write the piece, regenerate the
    used slot, run `check_and_animate` (queueing the animation and
    adding the points), update best, and enter game over when no held
    piece has a legal origin any more. -/
def place_piece_core (st : PlayState) (i x y : Nat) (reset : Bool) (s : RS) : PlayState :=
  let p := st.pieces.getD i default_piece
  let b1 := place_on_board st.board p x y
  let g := generate_placeable_piece b1 st.c5 reset s
  let tc := to_clear b1
  let pts := tc.card * POINTS_PER_CELL
  let score1 := st.score + pts
  { st with
    board := b1
    pieces := st.pieces.set i g.1
    c5 := g.2
    score := score1
    best := if score1 > st.best then score1 else st.best
    anims := if tc = ∅ then st.anims else st.anims ++ [(st.now, tc)] }

/-- `place_piece` proper: the state updates above, then game over when
    no held piece has a legal origin any more. -/
def place_piece (st : PlayState) (i x y : Nat) (reset : Bool) (s : RS) : PlayState :=
  let st1 := place_piece_core st i x y reset s
  if any_move_possible st1 then st1 else { st1 with game_over := true }

/-- The `update_animations` loop at frame time `now`: animations older
    than CLEAR_ANIM are applied to the board and dropped, the rest are
    kept. -/
def process_anims (bd : Board) (now : ℚ) :
    List (ℚ × Finset (Nat × Nat)) → Board × List (ℚ × Finset (Nat × Nat))
  | [] => (bd, [])
  | a :: rest =>
    if now - a.1 > CLEAR_ANIM then process_anims (update_animations bd a.2) now rest
    else
      match process_anims bd now rest with
      | (b2, keep) => (b2, a :: keep)

/-- `update(dt)`: advance the clock; when neither paused nor over,
    resolve due animations and check timer expiry (timed mode only). -/
def game_update (st : PlayState) (dt : ℚ) : PlayState :=
  let st1 := { st with now := st.now + dt }
  if ¬st1.paused ∧ ¬st1.game_over then
    match process_anims st1.board st1.now st1.anims with
    | (b2, keep) =>
      let st2 := { st1 with board := b2, anims := keep }
      if st2.timed_mode ∧ st2.now - st2.start_time > TIMER_SECONDS_Q then
        { st2 with game_over := true }
      else st2
  else st1

/-- The user intents the main loop dispatches, abstracted by the screen
    region hit (the rects are disjoint). -/
inductive GEvent
  | menuChoose (timed : Bool)
  | clickRestart
  | clickQuit
  | clickBoard (gx gy : Int)
  | clickSlot (i : Nat)
  | clickElse
  | keyP
  | keyEsc
  | tick (dt : ℚ)

/-- The reset flags and random streams available to any piece
    generation an event triggers (up to three on restart). -/
structure GenOracle where
  r1 : Bool
  s1 : RS
  r2 : Bool
  s2 : RS
  r3 : Bool
  s3 : RS

/-- `reset()`: fresh board, three pieces generated with the current
    counter, score 0, counter zeroed at the end; best is kept. -/
def game_reset (st : PlayState) (o : GenOracle) : PlayState :=
  let g1 := generate_placeable_piece emptyBoard st.c5 o.r1 o.s1
  let g2 := generate_placeable_piece emptyBoard g1.2 o.r2 o.s2
  let g3 := generate_placeable_piece emptyBoard g2.2 o.r3 o.s3
  { board := emptyBoard, pieces := [g1.1, g2.1, g3.1], c5 := 0, score := 0,
    best := st.best, game_over := false, paused := false, timed_mode := st.timed_mode,
    start_time := st.now, now := st.now, selected := none, dragging := false, anims := [] }

/-- The `BlockBlastGame` constructor (best score passed in from the
    abstract persistence read). -/
def new_game (timed : Bool) (best0 : Nat) (o : GenOracle) : PlayState :=
  let g1 := generate_placeable_piece emptyBoard 0 o.r1 o.s1
  let g2 := generate_placeable_piece emptyBoard g1.2 o.r2 o.s2
  let g3 := generate_placeable_piece emptyBoard g2.2 o.r3 o.s3
  { board := emptyBoard, pieces := [g1.1, g2.1, g3.1], c5 := 0, score := 0,
    best := best0, game_over := false, paused := false, timed_mode := timed,
    start_time := 0, now := 0, selected := none, dragging := false, anims := [] }

/-- `BlockBlastGame.handle_click`, by region: over a finished game any
    click returns to the menu; paused swallows clicks; otherwise
    restart, quit, board placement or slot selection.  The Bool is the
    "menu" result the main loop acts on. -/
def handle_click (st : PlayState) (ev : GEvent) (o : GenOracle) : PlayState × Bool :=
  if st.game_over then (st, true)
  else if st.paused then (st, false)
  else
    match ev with
    | .clickRestart => (game_reset st o, false)
    | .clickQuit => (st, true)
    | .clickBoard gx gy =>
      if st.dragging ∧ st.selected.isSome then
        if can_place st.board (st.pieces.getD (st.selected.getD 0) default_piece) gx gy then
          ({ place_piece st (st.selected.getD 0) gx.toNat gy.toNat o.r1 o.s1 with
              dragging := false, selected := none }, false)
        else ({ st with dragging := false, selected := none }, false)
      else (st, false)
    | .clickSlot i => ({ st with selected := some i, dragging := true }, false)
    | _ => (st, false)

/-- The top-level mode: the menu, or a running game. -/
inductive TopState
  | menu (timed : Bool) (best : Nat)
  | inGame (g : PlayState)

/-- One iteration of the main event loop. -/
def top_step (ts : TopState) (ev : GEvent) (o : GenOracle) : TopState :=
  match ts with
  | .menu timed best =>
    match ev with
    | .menuChoose t => .inGame (new_game t best o)
    | _ => .menu timed best
  | .inGame g =>
    match ev with
    | .keyEsc => .menu g.timed_mode g.best
    | .keyP => .inGame { g with paused := !g.paused }
    | .tick dt => .inGame (game_update g dt)
    | .menuChoose _ => .inGame g
    | e =>
      match handle_click g e o with
      | (g2, true) => .menu g2.timed_mode g2.best
      | (g2, false) => .inGame g2

/-- C7: (1) a placement leaves game_over set exactly when it was
    already set or no held piece has any legal origin afterwards (the
    placement that strands all three pieces transitions to GameOver);
    (2) from a game-over state every event either returns to the menu
    (the explicit return-to-menu/escape actions — the game-over screen
    maps every click to menu) or stays in a game-over state: nothing
    but those explicit actions leaves GameOver. -/
theorem place_piece_go_aux (st0 : PlayState) (goOld : Bool) (h : st0.game_over = goOld) :
    (if any_move_possible st0 then st0 else { st0 with game_over := true }).game_over =
      (goOld ||
        !any_move_possible
          (if any_move_possible st0 then st0 else { st0 with game_over := true })) := by
  split
  · rename_i hm
    simp [hm, h]
  · rename_i hm
    rw [Bool.not_eq_true] at hm
    have hsame : any_move_possible { st0 with game_over := true } = any_move_possible st0 :=
      rfl
    simp [hsame, hm]

theorem c7_theorem :
    (∀ (st : PlayState) (i x y : Nat) (r : Bool) (s : RS),
      (place_piece st i x y r s).game_over =
        (st.game_over || !any_move_possible (place_piece st i x y r s))) ∧
    (∀ (g : PlayState) (ev : GEvent) (o : GenOracle), g.game_over = true →
      (∃ t bb, top_step (.inGame g) ev o = .menu t bb) ∨
      (∃ g2, top_step (.inGame g) ev o = .inGame g2 ∧ g2.game_over = true)) := by
  constructor
  · intro st i x y r s
    unfold place_piece
    dsimp only
    have hcore : (place_piece_core st i x y r s).game_over = st.game_over := rfl
    exact place_piece_go_aux (place_piece_core st i x y r s) st.game_over hcore
  · intro g ev o hgo
    cases ev with
    | menuChoose t => exact Or.inr ⟨g, rfl, hgo⟩
    | keyP => exact Or.inr ⟨{ g with paused := !g.paused }, rfl, hgo⟩
    | keyEsc => exact Or.inl ⟨g.timed_mode, g.best, rfl⟩
    | tick dt =>
      refine Or.inr ⟨game_update g dt, rfl, ?_⟩
      unfold game_update
      dsimp only
      rw [hgo]
      simp
    | clickRestart =>
      refine Or.inl ⟨g.timed_mode, g.best, ?_⟩
      show (match handle_click g .clickRestart o with
        | (g2, true) => TopState.menu g2.timed_mode g2.best
        | (g2, false) => TopState.inGame g2) = _
      unfold handle_click
      rw [if_pos hgo]
    | clickQuit =>
      refine Or.inl ⟨g.timed_mode, g.best, ?_⟩
      show (match handle_click g .clickQuit o with
        | (g2, true) => TopState.menu g2.timed_mode g2.best
        | (g2, false) => TopState.inGame g2) = _
      unfold handle_click
      rw [if_pos hgo]
    | clickBoard gx gy =>
      refine Or.inl ⟨g.timed_mode, g.best, ?_⟩
      show (match handle_click g (.clickBoard gx gy) o with
        | (g2, true) => TopState.menu g2.timed_mode g2.best
        | (g2, false) => TopState.inGame g2) = _
      unfold handle_click
      rw [if_pos hgo]
    | clickSlot i =>
      refine Or.inl ⟨g.timed_mode, g.best, ?_⟩
      show (match handle_click g (.clickSlot i) o with
        | (g2, true) => TopState.menu g2.timed_mode g2.best
        | (g2, false) => TopState.inGame g2) = _
      unfold handle_click
      rw [if_pos hgo]
    | clickElse =>
      refine Or.inl ⟨g.timed_mode, g.best, ?_⟩
      show (match handle_click g .clickElse o with
        | (g2, true) => TopState.menu g2.timed_mode g2.best
        | (g2, false) => TopState.inGame g2) = _
      unfold handle_click
      rw [if_pos hgo]

/-- A trivial oracle for witnesses. -/
def default_oracle : GenOracle := ⟨false, [], false, [], false, []⟩

/-- A concrete finished game. -/
def dead_state : PlayState :=
  { board := emptyBoard, pieces := [default_piece, default_piece, default_piece], c5 := 0,
    score := 0, best := 0, game_over := true, paused := false, timed_mode := false,
    start_time := 0, now := 0, selected := none, dragging := false, anims := [] }

/-- C7 witness: the terminality clause on a concrete game-over state
    under the pause-toggle key. -/
theorem c7_witness :
    dead_state.game_over = true ∧
    ((∃ t bb, top_step (.inGame dead_state) .keyP default_oracle = .menu t bb) ∨
      (∃ g2, top_step (.inGame dead_state) .keyP default_oracle = .inGame g2 ∧
        g2.game_over = true)) :=
  ⟨rfl, c7_theorem.2 dead_state .keyP default_oracle rfl⟩

end Summetry
